import Mathlib

/-!
Request-interception pipeline of `atom/browser/net/atom_network_delegate.cc`

A shallow embedding of `AtomNetworkDelegate`: the listener registry, the URL
filter, the attribute-record builder (`ToDictionary` / `FillDetailsObject`),
the response merger (`ReadFromResponseObject`), the pending-callback table and
the lifecycle hooks.

Conventions of the embedding.

* Mutable members of the delegate are fields of `AtomNetworkDelegate`; every
  member function takes the state and returns the new state.
* Out-parameters (`GURL* new_url`, `net::HttpRequestHeaders* headers`,
  `scoped_refptr<net::HttpResponseHeaders>* override`) are passed in by value
  and returned.
* What a function does to the outside world is returned as a list of `Effect`s
  in program order: a task posted to the UI thread, or a completion callback
  being run.
* `std::map` members are finite maps written as functions into `Option`.
* Chromium library types (`base::Value`, `net::HttpRequestHeaders`,
  `net::HttpResponseHeaders`, `GURL`, `URLPattern`) are not part of the
  repository; each is modelled by the part of its interface the delegate uses,
  and the doc comment of the model says so.
-/

namespace Muon

/-! ## Net error codes (`net/base/net_error_list.h`) -/

/-- The value of `net::OK`. -/
def net_OK : Int := 0

/-- The value of `net::ERR_IO_PENDING`. -/
def net_ERR_IO_PENDING : Int := -1

/-- The value of `net::ERR_ABORTED`. -/
def net_ERR_ABORTED : Int := -3

/-! ## `base::Value` -/

/-- The `base::Value` variants the delegate reads or writes. A dictionary is
its entry list in iteration order (the storage is a map sorted by key). The
payload of `double` is the real number the C++ double stands for. -/
inductive Value where
  | none
  | boolean (b : Bool)
  | integer (i : Int)
  | double (d : Rat)
  | string (s : String)
  | dictionary (entries : List (String × Value))
  | list (items : List Value)

/-- A `base::DictionaryValue`: its entries in iteration order. -/
abbrev DictionaryValue := List (String × Value)

/-- A `base::ListValue`: its items. -/
abbrev ListValue := List Value

namespace Value

/-- `Value::GetAsBoolean`: the payload of a boolean value, else failure. -/
def GetAsBoolean : Value → Option Bool
  | boolean b => some b
  | _ => Option.none

/-- `Value::GetAsString`: the payload of a string value, else failure. -/
def GetAsString : Value → Option String
  | string s => some s
  | _ => Option.none

/-- `Value::GetAsDictionary`. -/
def GetAsDictionary : Value → Option DictionaryValue
  | dictionary d => some d
  | _ => Option.none

/-- `Value::GetAsList`. -/
def GetAsList : Value → Option ListValue
  | list l => some l
  | _ => Option.none

end Value

namespace DictionaryValue

/-- `Value::FindKey` / `GetWithoutPathExpansion`: the value stored under
exactly `key`. -/
def FindKey : DictionaryValue → String → Option Value
  | [], _ => none
  | (k, v) :: rest, key => if k = key then some v else FindKey rest key

/-- `DictionaryValue::HasKey`: no path expansion. -/
def HasKey (d : DictionaryValue) (key : String) : Bool :=
  (FindKey d key).isSome

/-- The order of `std::string` (lexicographic on characters), on which the
dictionary storage is sorted. -/
def lessChars : List Char → List Char → Bool
  | _, [] => false
  | [], _ :: _ => true
  | a :: as, b :: bs =>
    if a.toNat < b.toNat then true
    else if b.toNat < a.toNat then false
    else lessChars as bs

/-- The key order of the dictionary storage. -/
def keyLess (a b : String) : Bool :=
  lessChars a.data b.data

/-- `Value::SetKey` / `SetWithoutPathExpansion`: overwrite the value under
`key`, or insert the entry at its place in key order. -/
def SetKey : DictionaryValue → String → Value → DictionaryValue
  | [], key, v => [(key, v)]
  | (k, w) :: rest, key, v =>
    if k = key then (key, v) :: rest
    else if keyLess key k then (key, v) :: (k, w) :: rest
    else (k, w) :: SetKey rest key v

/-- The components of a path: the pieces between the `.` characters. -/
def splitPathChars : List Char → List String
  | [] => [""]
  | c :: cs =>
    match splitPathChars cs with
    | [] => [""]
    | s :: rest =>
      if c = '.' then "" :: s :: rest else String.mk (c :: s.data) :: rest

/-- The components of the path `path`. -/
def splitPath (path : String) : List String :=
  splitPathChars path.data

/-- The loop of `DictionaryValue::Get` over the components of a path: every
component but the last must name a nested dictionary. -/
def GetComponents : List String → DictionaryValue → Option Value
  | [], _ => none
  | [key], d => FindKey d key
  | key :: rest, d =>
    match FindKey d key with
    | some (Value.dictionary child) => GetComponents rest child
    | _ => none

/-- `DictionaryValue::Get(path)`: lookup with path expansion. -/
def Get (d : DictionaryValue) (path : String) : Option Value :=
  GetComponents (splitPath path) d

/-- The loop of `DictionaryValue::Set` over the components of a path: a
component that does not name a nested dictionary is overwritten with a fresh
one. -/
def SetComponents : List String → Value → DictionaryValue → DictionaryValue
  | [], _, d => d
  | [key], v, d => SetKey d key v
  | key :: rest, v, d =>
    let child : DictionaryValue :=
      match FindKey d key with
      | some (Value.dictionary c) => c
      | _ => []
    SetKey d key (Value.dictionary (SetComponents rest v child))

/-- `DictionaryValue::Set(path, value)`: store with path expansion. -/
def Set (d : DictionaryValue) (path : String) (v : Value) : DictionaryValue :=
  SetComponents (splitPath path) v d

/-- `DictionaryValue::GetBoolean(path, &out)`. -/
def GetBoolean (d : DictionaryValue) (path : String) : Option Bool :=
  (Get d path).bind Value.GetAsBoolean

/-- `DictionaryValue::GetString(path, &out)`. -/
def GetString (d : DictionaryValue) (path : String) : Option String :=
  (Get d path).bind Value.GetAsString

/-- `DictionaryValue::GetDictionary(path, &out)`. -/
def GetDictionary (d : DictionaryValue) (path : String) : Option DictionaryValue :=
  (Get d path).bind Value.GetAsDictionary

/-- `DictionaryValue::GetList(path, &out)`. -/
def GetList (d : DictionaryValue) (path : String) : Option ListValue :=
  (Get d path).bind Value.GetAsList

/-- `DictionaryValue::SetInteger(path, i)`. -/
def SetInteger (d : DictionaryValue) (path : String) (i : Int) : DictionaryValue :=
  Set d path (Value.integer i)

/-- `DictionaryValue::SetDouble(path, x)`. -/
def SetDouble (d : DictionaryValue) (path : String) (x : Rat) : DictionaryValue :=
  Set d path (Value.double x)

/-- `DictionaryValue::SetString(path, s)`. -/
def SetString (d : DictionaryValue) (path : String) (s : String) : DictionaryValue :=
  Set d path (Value.string s)

/-- `DictionaryValue::SetBoolean(path, b)`. -/
def SetBoolean (d : DictionaryValue) (path : String) (b : Bool) : DictionaryValue :=
  Set d path (Value.boolean b)

end DictionaryValue

namespace ListValue

/-- `ListValue::AppendString`. -/
def AppendString (l : ListValue) (s : String) : ListValue :=
  l ++ [Value.string s]

/-- `ListValue::GetString(index, &out)`. -/
def GetString (l : ListValue) (index : Nat) : Option String :=
  (l.get? index).bind Value.GetAsString

end ListValue


/-! ## Chromium types the delegate works on -/

/-- A `GURL`, identified by the string it was parsed from; `spec()` gives that
string back (canonicalisation is not modelled). -/
structure GURL where
  spec : String
  deriving DecidableEq

/-- An `extensions::URLPattern`: only its matching predicate is used. -/
structure URLPattern where
  MatchesURL : GURL → Bool

/-- The type `URLPatterns` (a `std::set<URLPattern>`), as the list of its
members in iteration order. -/
abbrev URLPatterns := List URLPattern

/-- `base::EqualsCaseInsensitiveASCII`, the comparison of header names. -/
def EqualsCaseInsensitiveASCII (a b : String) : Bool :=
  a.data.map Char.toLower == b.data.map Char.toLower

/-- A `net::HttpRequestHeaders`: its vector of key/value pairs. -/
abbrev HttpRequestHeaders := List (String × String)

namespace HttpRequestHeaders

/-- `HttpRequestHeaders::Clear`. -/
def Clear (_headers : HttpRequestHeaders) : HttpRequestHeaders :=
  []

/-- `HttpRequestHeaders::SetHeader`: the first header whose name equals `key`
ignoring ASCII case gets the new value, keeping its place and its spelling of
the name; when there is none the pair is appended. -/
def SetHeader : HttpRequestHeaders → String → String → HttpRequestHeaders
  | [], key, value => [(key, value)]
  | (k, v) :: rest, key, value =>
    if EqualsCaseInsensitiveASCII key k then (k, value) :: rest
    else (k, v) :: SetHeader rest key value

/-- `HttpRequestHeaders::GetHeader`: the value of the first header whose name
equals `key` ignoring ASCII case. -/
def GetHeader : HttpRequestHeaders → String → Option String
  | [], _ => none
  | (k, v) :: rest, key =>
    if EqualsCaseInsensitiveASCII key k then some v else GetHeader rest key

end HttpRequestHeaders

/-- The parsing routines of `net::HttpResponseHeaders` and the other library
functions whose results the delegate passes on without looking at them; they
and the build flag are parameters of the embedding.

* `ParseStatusLine line` is the normalised status line and the response code
  that parsing `line` gives.
* `ParseHeaderLine line` is the name and the value of a header line, or
  nothing when the parser skips the line.
* `ErrorToString` is `net::ErrorToString`.
* `ENABLE_EXTENSIONS` is the build flag of that name. -/
structure NetEnv where
  ParseStatusLine : String → String × Int
  ParseHeaderLine : String → Option (String × String)
  ErrorToString : Int → String
  ENABLE_EXTENSIONS : Bool

/-- A `net::HttpResponseHeaders`: the normalised status line, the response
code, and the header lines (name, value) in order. -/
structure HttpResponseHeaders where
  status_line : String
  response_code : Int
  lines : List (String × String)
  deriving DecidableEq

namespace HttpResponseHeaders

/-- The constructor `HttpResponseHeaders(raw_input)` at the empty input: the
status line is what the parser makes of an empty line, and there is no header
line. -/
def ofEmpty (env : NetEnv) : HttpResponseHeaders :=
  { status_line := (env.ParseStatusLine "").1
    response_code := (env.ParseStatusLine "").2
    lines := [] }

/-- `HttpResponseHeaders::GetStatusLine`. -/
def GetStatusLine (h : HttpResponseHeaders) : String :=
  h.status_line

/-- `HttpResponseHeaders::EnumerateHeaderLines`, all calls of the loop at
once: the header lines in order. -/
def EnumerateHeaderLines (h : HttpResponseHeaders) : List (String × String) :=
  h.lines

/-- `HttpResponseHeaders::ReplaceStatusLine`: the block is parsed again with
the new status line in front. -/
def ReplaceStatusLine (env : NetEnv) (h : HttpResponseHeaders) (new_status : String) :
    HttpResponseHeaders :=
  { h with
    status_line := (env.ParseStatusLine new_status).1
    response_code := (env.ParseStatusLine new_status).2 }

/-- `HttpResponseHeaders::RemoveHeader`: drops every line whose name equals
`name` ignoring ASCII case. -/
def RemoveHeader (h : HttpResponseHeaders) (name : String) : HttpResponseHeaders :=
  { h with lines := h.lines.filter (fun l => !EqualsCaseInsensitiveASCII l.1 name) }

/-- `HttpResponseHeaders::AddHeader`: the block is parsed again with the line
`header` at its end. -/
def AddHeader (env : NetEnv) (h : HttpResponseHeaders) (header : String) :
    HttpResponseHeaders :=
  match env.ParseHeaderLine header with
  | some line => { h with lines := h.lines ++ [line] }
  | none => h

/-- `HttpResponseHeaders::IsRedirectResponseCode`. -/
def IsRedirectResponseCode (response_code : Int) : Bool :=
  response_code == 301 || response_code == 302 || response_code == 303 ||
    response_code == 307 || response_code == 308

end HttpResponseHeaders

/-- A `net::HostPortPair`. -/
structure HostPortPair where
  host : String
  port : Nat
  deriving DecidableEq

/-- The enumeration `content::ResourceType`. -/
inductive ResourceType where
  | RESOURCE_TYPE_MAIN_FRAME
  | RESOURCE_TYPE_SUB_FRAME
  | RESOURCE_TYPE_STYLESHEET
  | RESOURCE_TYPE_SCRIPT
  | RESOURCE_TYPE_IMAGE
  | RESOURCE_TYPE_FONT_RESOURCE
  | RESOURCE_TYPE_SUB_RESOURCE
  | RESOURCE_TYPE_OBJECT
  | RESOURCE_TYPE_MEDIA
  | RESOURCE_TYPE_WORKER
  | RESOURCE_TYPE_SHARED_WORKER
  | RESOURCE_TYPE_PREFETCH
  | RESOURCE_TYPE_FAVICON
  | RESOURCE_TYPE_XHR
  | RESOURCE_TYPE_PING
  | RESOURCE_TYPE_SERVICE_WORKER
  | RESOURCE_TYPE_CSP_REPORT
  | RESOURCE_TYPE_PLUGIN_RESOURCE
  deriving DecidableEq

/-- What `content::ResourceRequestInfo::ForRequest` gives for a request that
has one. -/
structure ResourceRequestInfo where
  resource_type : ResourceType
  frame_tree_node_id : Int
  deriving DecidableEq

/-- What `content::WebSocketHandshakeRequestInfo::ForRequest` gives for a
request that has one. -/
structure WebSocketHandshakeRequestInfo where
  render_frame_id : Int
  child_id : Int
  deriving DecidableEq

/-- The facts of a `net::URLRequest` that the delegate reads.

* `resource_request_info`: `ResourceRequestInfo::ForRequest(request)`, absent
  when null.
* `render_frame_for_request`: the (process id, frame id) that
  `ResourceRequestInfo::GetRenderFrameForRequest` stores when it succeeds.
* `remote_endpoint`: the (address without port, port) that
  `GetRemoteEndpoint` stores when it succeeds.
* `response_headers`: absent when the pointer is null.
* `status_error`: `status().error()`. -/
structure URLRequest where
  identifier : Nat
  url : GURL
  method : String
  site_for_cookies : GURL
  resource_request_info : Option ResourceRequestInfo
  render_frame_for_request : Option (Int × Int)
  websocket_info : Option WebSocketHandshakeRequestInfo
  remote_endpoint : Option (String × Nat)
  response_headers : Option HttpResponseHeaders
  socket_address : HostPortPair
  was_cached : Bool
  status_error : Int
  deriving DecidableEq

/-- A `base::Callback`: null, or bound to the function named by `handle`. -/
inductive Callback where
  | null
  | bound (handle : Nat)
  deriving DecidableEq

/-- `Callback::is_null`. -/
def Callback.is_null : Callback → Bool
  | Callback.null => true
  | Callback.bound _ => false

/-- The type `AtomNetworkDelegate::SimpleListener`. -/
abbrev SimpleListener := Callback

/-- The type `AtomNetworkDelegate::ResponseListener`. -/
abbrev ResponseListener := Callback

/-- The type `net::CompletionCallback`. -/
abbrev CompletionCallback := Callback

/-! ## The URL filter -/

/-- The loop of `MatchesFilterCondition` over the patterns. -/
def MatchesFilterCondition.loop (url : GURL) : URLPatterns → Bool
  | [] => false
  | pattern :: rest =>
    if pattern.MatchesURL url then true else MatchesFilterCondition.loop url rest

/-- Test whether the URL of `request` matches `patterns`. -/
def MatchesFilterCondition (request : URLRequest) (patterns : URLPatterns) : Bool :=
  if patterns.isEmpty then true
  else MatchesFilterCondition.loop request.url patterns

/-! ## Building the details object -/

/-- `ResourceTypeToString`. -/
def ResourceTypeToString : ResourceType → String
  | ResourceType.RESOURCE_TYPE_MAIN_FRAME => "mainFrame"
  | ResourceType.RESOURCE_TYPE_SUB_FRAME => "subFrame"
  | ResourceType.RESOURCE_TYPE_STYLESHEET => "stylesheet"
  | ResourceType.RESOURCE_TYPE_SCRIPT => "script"
  | ResourceType.RESOURCE_TYPE_IMAGE => "image"
  | ResourceType.RESOURCE_TYPE_OBJECT => "object"
  | ResourceType.RESOURCE_TYPE_XHR => "xhr"
  | _ => "other"

/-- The conversion of a `uint64_t` to `int` (two's complement, 32 bits). -/
def toInt32 (n : Nat) : Int :=
  if n % 2 ^ 32 < 2 ^ 31 then (n % 2 ^ 32 : Nat) else ((n % 2 ^ 32 : Nat) : Int) - 2 ^ 32

/-- `GetRenderFrameIdAndProcessId(request, &render_frame_id,
&render_process_id)`: the two ids after the call, given them before. -/
def GetRenderFrameIdAndProcessId (env : NetEnv) (request : URLRequest)
    (render_frame_id render_process_id : Int) : Int × Int :=
  if env.ENABLE_EXTENSIONS then
    match request.render_frame_for_request with
    | some (process_id, frame_id) => (frame_id, process_id)
    | none =>
      match request.websocket_info with
      | some websocket_info => (websocket_info.render_frame_id, websocket_info.child_id)
      | none => (-1, -1)
  else (render_frame_id, render_process_id)

/-- `GetFrameTreeNodeId(request, &frame_tree_node_id)`: the id after the call,
given it before. -/
def GetFrameTreeNodeId (request : URLRequest) (frame_tree_node_id : Int) : Int :=
  match request.resource_request_info with
  | some request_info => request_info.frame_tree_node_id
  | none => frame_tree_node_id

/-- Modelled from the spec: `FillRequestDetails` of
`atom/common/native_mate_converters/net_converter.cc`, whose source is
absent. Of the base request facts the spec lists (id, timestamp, url, method,
resource type, first-party URL, remote ip/port) it contributes the two that
`ToDictionary(details, request)` does not write itself: `method` and `url`. -/
def FillRequestDetails (details : DictionaryValue) (request : URLRequest) : DictionaryValue :=
  let details := details.SetString "method" request.method
  details.SetString "url" request.url.spec

/-- `ToDictionary(details, request)`; `now` is the reading of
`base::Time::Now().ToDoubleT()` during the call. -/
def ToDictionary_request (now : Rat) (details : DictionaryValue) (request : URLRequest) :
    DictionaryValue :=
  let details := FillRequestDetails details request
  let details := details.SetInteger "id" (toInt32 request.identifier)
  let details := details.SetDouble "timestamp" (now * 1000)
  let details := details.SetString "firstPartyUrl" request.site_for_cookies.spec
  let details := details.SetString "resourceType"
    (match request.resource_request_info with
     | some info => ResourceTypeToString info.resource_type
     | none => "other")
  match request.remote_endpoint with
  | some (ip, port) =>
    let details := details.SetString "ip" ip
    details.SetInteger "port" port
  | none => details

/-- The loop of `ToDictionary(details, const net::HttpRequestHeaders&)`. -/
def ToDictionary_request_headers.loop : List (String × String) → DictionaryValue → DictionaryValue
  | [], dict => dict
  | (name, value) :: rest, dict =>
    ToDictionary_request_headers.loop rest (dict.SetKey name (Value.string value))

/-- `ToDictionary(details, const net::HttpRequestHeaders&)`. -/
def ToDictionary_request_headers (details : DictionaryValue) (headers : HttpRequestHeaders) :
    DictionaryValue :=
  let dict := ToDictionary_request_headers.loop headers []
  details.Set "requestHeaders" (Value.dictionary dict)

/-- The loop of `ToDictionary(details, const net::HttpResponseHeaders*)` over
the header lines. Appending through the pointer that `GetList` hands out is
written as storing the longer list at the same path. -/
def ToDictionary_response_headers.loop :
    List (String × String) → DictionaryValue → DictionaryValue
  | [], dict => dict
  | (key, value) :: rest, dict =>
    if dict.HasKey key then
      match dict.GetList key with
      | some values =>
        ToDictionary_response_headers.loop rest
          (dict.Set key (Value.list (ListValue.AppendString values value)))
      | none => ToDictionary_response_headers.loop rest dict
    else
      ToDictionary_response_headers.loop rest
        (dict.Set key (Value.list (ListValue.AppendString [] value)))

/-- `ToDictionary(details, const net::HttpResponseHeaders*)`; a null pointer is
`none`. -/
def ToDictionary_response_headers (details : DictionaryValue)
    (headers : Option HttpResponseHeaders) : DictionaryValue :=
  match headers with
  | none => details
  | some headers =>
    let dict := ToDictionary_response_headers.loop headers.EnumerateHeaderLines []
    let details := details.Set "responseHeaders" (Value.dictionary dict)
    let details := details.SetString "statusLine" headers.GetStatusLine
    details.SetInteger "statusCode" headers.response_code

/-- `ToDictionary(details, const GURL& location)`. -/
def ToDictionary_location (details : DictionaryValue) (location : GURL) : DictionaryValue :=
  details.SetString "redirectURL" location.spec

/-- `ToDictionary(details, const net::HostPortPair&)`. -/
def ToDictionary_host_port (details : DictionaryValue) (host_port : HostPortPair) :
    DictionaryValue :=
  if host_port.host.isEmpty then details.SetString "ip" host_port.host else details

/-- `ToDictionary(details, bool from_cache)`. -/
def ToDictionary_from_cache (details : DictionaryValue) (from_cache : Bool) : DictionaryValue :=
  details.SetBoolean "fromCache" from_cache

/-- `ToDictionary(details, const net::URLRequestStatus&)`; `error` is
`status.error()`. -/
def ToDictionary_status (env : NetEnv) (details : DictionaryValue) (error : Int) :
    DictionaryValue :=
  details.SetString "error" (env.ErrorToString error)

/-- An argument of `FillDetailsObject`, by its C++ type. -/
inductive Arg where
  | request (request : URLRequest)
  | request_headers (headers : HttpRequestHeaders)
  | response_headers (headers : Option HttpResponseHeaders)
  | location (location : GURL)
  | host_port (host_port : HostPortPair)
  | from_cache (from_cache : Bool)
  | status (error : Int)
  deriving DecidableEq

/-- The overload set `ToDictionary`, resolved on the type of the argument. -/
def ToDictionary (env : NetEnv) (now : Rat) (details : DictionaryValue) : Arg → DictionaryValue
  | Arg.request request => ToDictionary_request now details request
  | Arg.request_headers headers => ToDictionary_request_headers details headers
  | Arg.response_headers headers => ToDictionary_response_headers details headers
  | Arg.location location => ToDictionary_location details location
  | Arg.host_port host_port => ToDictionary_host_port details host_port
  | Arg.from_cache from_cache => ToDictionary_from_cache details from_cache
  | Arg.status error => ToDictionary_status env details error

/-- Helper function to fill `details` with arbitrary `args`: the two
templates `FillDetailsObject(details, arg)` and
`FillDetailsObject(details, arg, args...)`. -/
def FillDetailsObject (env : NetEnv) (now : Rat) :
    DictionaryValue → Arg → List Arg → DictionaryValue
  | details, arg, [] => ToDictionary env now details arg
  | details, arg, next :: args =>
    FillDetailsObject env now (ToDictionary env now details arg) next args

/-! ## Reading a listener's response back -/

/-- The cells of the request engine that the out-parameters of the
interceptable hooks point to: the redirect target (`GURL* new_url`), the
outgoing request headers (`net::HttpRequestHeaders* headers`) and the response
header override (`scoped_refptr<net::HttpResponseHeaders>* override`, `none`
when it holds no block). -/
structure Targets where
  new_url : GURL
  headers : HttpRequestHeaders
  override : Option HttpResponseHeaders
  deriving DecidableEq

/-- The template parameter `Out` of `HandleResponseEvent`, that is `T` of
`OnListenerResultInIO`: which cells the bound out-parameter points to. The
`ResponseHeadersContainer` carries its `status_line` by value. -/
inductive Out where
  | new_url
  | headers
  | container (status_line : String)
  deriving DecidableEq

/-- `ReadFromResponseObject(response, GURL* new_location)`. -/
def ReadFromResponseObject_new_location (response : DictionaryValue) (new_location : GURL) :
    GURL :=
  match response.GetString "redirectURL" with
  | some url => GURL.mk url
  | none => new_location

/-- The loop of `ReadFromResponseObject(response, net::HttpRequestHeaders*)`
over the entries of the `requestHeaders` dictionary. -/
def ReadFromResponseObject_headers.loop :
    DictionaryValue → HttpRequestHeaders → HttpRequestHeaders
  | [], headers => headers
  | (key, value) :: rest, headers =>
    match value.GetAsString with
    | some value =>
      ReadFromResponseObject_headers.loop rest (HttpRequestHeaders.SetHeader headers key value)
    | none => ReadFromResponseObject_headers.loop rest headers

/-- `ReadFromResponseObject(response, net::HttpRequestHeaders* headers)`. -/
def ReadFromResponseObject_headers (response : DictionaryValue) (headers : HttpRequestHeaders) :
    HttpRequestHeaders :=
  match response.GetDictionary "requestHeaders" with
  | some dict => ReadFromResponseObject_headers.loop dict (HttpRequestHeaders.Clear headers)
  | none => headers

/-- The inner loop of `ReadFromResponseObject(response, container)`: one
`AddHeader` for every string of the list. -/
def ReadFromResponseObject_container.addValues (env : NetEnv) (key : String) :
    ListValue → HttpResponseHeaders → HttpResponseHeaders
  | [], headers => headers
  | item :: rest, headers =>
    match item.GetAsString with
    | some value =>
      ReadFromResponseObject_container.addValues env key rest
        (HttpResponseHeaders.AddHeader env headers (key ++ " : " ++ value))
    | none => ReadFromResponseObject_container.addValues env key rest headers

/-- The outer loop of `ReadFromResponseObject(response, container)` over the
entries of the `responseHeaders` dictionary. -/
def ReadFromResponseObject_container.loop (env : NetEnv) :
    DictionaryValue → HttpResponseHeaders → HttpResponseHeaders
  | [], headers => headers
  | (key, value) :: rest, headers =>
    match value.GetAsList with
    | some list =>
      ReadFromResponseObject_container.loop env rest
        (ReadFromResponseObject_container.addValues env key list
          (HttpResponseHeaders.RemoveHeader headers key))
    | none => ReadFromResponseObject_container.loop env rest headers

/-- `ReadFromResponseObject(response, const ResponseHeadersContainer&)`: the
override cell and the redirect cell after the call. -/
def ReadFromResponseObject_container (env : NetEnv) (response : DictionaryValue)
    (container_status_line : String) (override : Option HttpResponseHeaders) (new_url : GURL) :
    Option HttpResponseHeaders × GURL :=
  let status_line :=
    match response.GetString "statusLine" with
    | some status_line => status_line
    | none => container_status_line
  let new_url :=
    match response.GetString "redirectURL" with
    | some url => GURL.mk url
    | none => new_url
  match response.GetDictionary "responseHeaders" with
  | some dict =>
    let headers := HttpResponseHeaders.ofEmpty env
    let headers := HttpResponseHeaders.ReplaceStatusLine env headers status_line
    (some (ReadFromResponseObject_container.loop env dict headers), new_url)
  | none => (override, new_url)

/-- The overload set `ReadFromResponseObject(response, out)`, resolved on the
type of `out`, acting on the cells `out` points to. -/
def ReadFromResponseObject (env : NetEnv) (response : DictionaryValue) (out : Out)
    (targets : Targets) : Targets :=
  match out with
  | Out.new_url =>
    { targets with new_url := ReadFromResponseObject_new_location response targets.new_url }
  | Out.headers =>
    { targets with headers := ReadFromResponseObject_headers response targets.headers }
  | Out.container status_line =>
    let r := ReadFromResponseObject_container env response status_line targets.override
      targets.new_url
    { targets with override := r.1, new_url := r.2 }

/-! ## The delegate -/

/-- The enumeration `AtomNetworkDelegate::SimpleEvent`. -/
inductive SimpleEvent where
  | kOnSendHeaders
  | kOnBeforeRedirect
  | kOnResponseStarted
  | kOnCompleted
  | kOnErrorOccurred
  deriving DecidableEq

/-- The enumeration `AtomNetworkDelegate::ResponseEvent`. -/
inductive ResponseEvent where
  | kOnBeforeRequest
  | kOnBeforeSendHeaders
  | kOnHeadersReceived
  deriving DecidableEq

/-- The struct `AtomNetworkDelegate::SimpleListenerInfo`. -/
structure SimpleListenerInfo where
  url_patterns : URLPatterns
  listener : SimpleListener

/-- The struct `AtomNetworkDelegate::ResponseListenerInfo`. -/
structure ResponseListenerInfo where
  url_patterns : URLPatterns
  listener : ResponseListener

/-- The value-initialised `SimpleListenerInfo` that `operator[]` inserts. -/
def SimpleListenerInfo.empty : SimpleListenerInfo :=
  { url_patterns := [], listener := Callback.null }

/-- The value-initialised `ResponseListenerInfo` that `operator[]` inserts. -/
def ResponseListenerInfo.empty : ResponseListenerInfo :=
  { url_patterns := [], listener := Callback.null }

/-- The data members of `AtomNetworkDelegate`. -/
structure AtomNetworkDelegate where
  simple_listeners_ : SimpleEvent → Option SimpleListenerInfo
  response_listeners_ : ResponseEvent → Option ResponseListenerInfo
  callbacks_ : Nat → Option CompletionCallback
  client_id_ : String

/-- The delegate after its constructor: empty maps, empty client id. -/
def AtomNetworkDelegate.new : AtomNetworkDelegate :=
  { simple_listeners_ := fun _ => none
    response_listeners_ := fun _ => none
    callbacks_ := fun _ => none
    client_id_ := "" }

/-- The callback `base::Bind(&AtomNetworkDelegate::OnListenerResultInUI<Out>,
weak_ptr, id, out)` handed to a response listener. -/
structure ResponseCallback where
  id : Nat
  out : Out
  deriving DecidableEq

/-- The task `base::Bind(RunSimpleListener, listener, details, ...)`. -/
structure SimpleTask where
  listener : SimpleListener
  details : DictionaryValue
  frame_tree_node_id : Int
  render_frame_id : Int
  render_process_id : Int

/-- The task `base::Bind(RunResponseListener, listener, details, ...,
response)`. -/
structure ResponseTask where
  listener : ResponseListener
  details : DictionaryValue
  frame_tree_node_id : Int
  render_frame_id : Int
  render_process_id : Int
  response : ResponseCallback

/-- What a member function does to the world outside the delegate. -/
inductive Effect where
  | PostSimpleTask (task : SimpleTask)
  | PostResponseTask (task : ResponseTask)
  | Run (callback : CompletionCallback) (status : Int)

/-- `Effect.isRun`: the effect is a completion callback being run. -/
def Effect.isRun : Effect → Bool
  | Effect.Run _ _ => true
  | _ => false

/-- `Effect.isPost`: the effect is a task posted to the UI thread. -/
def Effect.isPost : Effect → Bool
  | Effect.Run _ _ => false
  | _ => true

/-- What an `int`-returning hook leaves behind: its return value, the
delegate, the cell its out-parameter points to, and its effects. -/
structure HookResult (τ : Type) where
  ret : Int
  delegate : AtomNetworkDelegate
  out : τ
  effects : List Effect

/-- What a `void` member function leaves behind. -/
structure VoidResult where
  delegate : AtomNetworkDelegate
  effects : List Effect

/-- What `OnListenerResultInIO` leaves behind. -/
structure ListenerResult where
  delegate : AtomNetworkDelegate
  targets : Targets
  effects : List Effect

/-- The header name
`content::ThrottlingNetworkTransaction::kDevToolsEmulateNetworkConditionsClientId`. -/
def kDevToolsEmulateNetworkConditionsClientId : String :=
  "X-DevTools-Emulate-Network-Conditions-Client-Id"

/-- Modelled from the spec: the hooks `OnBeforeURLRequest`,
`OnBeforeStartTransaction` and `OnHeadersReceived` of the base class
`brightray::NetworkDelegate`, whose source is absent. An absent registration
is the default pass-through: the base hook proceeds (returns `net::OK`) and
touches neither its out-parameter nor the delegate; the `void` base hooks
(`OnStartTransaction`, `OnBeforeRedirect`, `OnResponseStarted`,
`OnCompleted`) do nothing the delegate can see. -/
def brightray_NetworkDelegate_default : Int :=
  net_OK

namespace AtomNetworkDelegate

/-- `AtomNetworkDelegate::SetSimpleListenerInIO`. -/
def SetSimpleListenerInIO (s : AtomNetworkDelegate) (type : SimpleEvent)
    (patterns : URLPatterns) (callback : SimpleListener) : AtomNetworkDelegate :=
  if callback.is_null then
    { s with simple_listeners_ := Function.update s.simple_listeners_ type none }
  else
    let info : SimpleListenerInfo := { url_patterns := patterns, listener := callback }
    { s with simple_listeners_ := Function.update s.simple_listeners_ type (some info) }

/-- `AtomNetworkDelegate::SetResponseListenerInIO`. -/
def SetResponseListenerInIO (s : AtomNetworkDelegate) (type : ResponseEvent)
    (patterns : URLPatterns) (callback : ResponseListener) : AtomNetworkDelegate :=
  if callback.is_null then
    { s with response_listeners_ := Function.update s.response_listeners_ type none }
  else
    let info : ResponseListenerInfo := { url_patterns := patterns, listener := callback }
    { s with response_listeners_ := Function.update s.response_listeners_ type (some info) }

/-- `AtomNetworkDelegate::SetDevToolsNetworkEmulationClientId`. -/
def SetDevToolsNetworkEmulationClientId (s : AtomNetworkDelegate) (client_id : String) :
    AtomNetworkDelegate :=
  { s with client_id_ := client_id }

/-- The expression `response_listeners_[type]`: the stored info, and the
delegate after `operator[]` (which inserts an empty info when there is
none). -/
def response_listeners_at (s : AtomNetworkDelegate) (type : ResponseEvent) :
    ResponseListenerInfo × AtomNetworkDelegate :=
  match s.response_listeners_ type with
  | some info => (info, s)
  | none =>
    (ResponseListenerInfo.empty,
      { s with response_listeners_ :=
          Function.update s.response_listeners_ type (some ResponseListenerInfo.empty) })

/-- The expression `simple_listeners_[type]`: the stored info, and the
delegate after `operator[]`. -/
def simple_listeners_at (s : AtomNetworkDelegate) (type : SimpleEvent) :
    SimpleListenerInfo × AtomNetworkDelegate :=
  match s.simple_listeners_ type with
  | some info => (info, s)
  | none =>
    (SimpleListenerInfo.empty,
      { s with simple_listeners_ :=
          Function.update s.simple_listeners_ type (some SimpleListenerInfo.empty) })

/-- `AtomNetworkDelegate::HandleResponseEvent<Out, Args...>(type, request,
callback, out, args...)`: the return value, the delegate and the effects. The
cells behind `out` are not touched here, only bound into the response
callback. -/
def HandleResponseEvent (env : NetEnv) (now : Rat) (s : AtomNetworkDelegate)
    (type : ResponseEvent) (request : URLRequest) (callback : CompletionCallback)
    (out : Out) (args : List Arg) : HookResult Unit :=
  let (info, s) := s.response_listeners_at type
  if !MatchesFilterCondition request info.url_patterns then
    { ret := net_OK, delegate := s, out := (), effects := [] }
  else
    let details := FillDetailsObject env now [] (Arg.request request) args
    let s := { s with callbacks_ := Function.update s.callbacks_ request.identifier (some callback) }
    let frame_tree_node_id := GetFrameTreeNodeId request (-1)
    let ids := GetRenderFrameIdAndProcessId env request (-1) (-1)
    let response : ResponseCallback := { id := request.identifier, out := out }
    { ret := net_ERR_IO_PENDING
      delegate := s
      out := ()
      effects := [Effect.PostResponseTask
        { listener := info.listener
          details := details
          frame_tree_node_id := frame_tree_node_id
          render_frame_id := ids.1
          render_process_id := ids.2
          response := response }] }

/-- `AtomNetworkDelegate::HandleSimpleEvent<Args...>(type, request,
args...)`. -/
def HandleSimpleEvent (env : NetEnv) (now : Rat) (s : AtomNetworkDelegate)
    (type : SimpleEvent) (request : URLRequest) (args : List Arg) : VoidResult :=
  let (info, s) := s.simple_listeners_at type
  if !MatchesFilterCondition request info.url_patterns then
    { delegate := s, effects := [] }
  else
    let details := FillDetailsObject env now [] (Arg.request request) args
    let frame_tree_node_id := GetFrameTreeNodeId request (-1)
    let ids := GetRenderFrameIdAndProcessId env request (-1) (-1)
    { delegate := s
      effects := [Effect.PostSimpleTask
        { listener := info.listener
          details := details
          frame_tree_node_id := frame_tree_node_id
          render_frame_id := ids.1
          render_process_id := ids.2 }] }

/-- `AtomNetworkDelegate::OnBeforeURLRequest(request, callback, new_url)`. -/
def OnBeforeURLRequest (env : NetEnv) (now : Rat) (s : AtomNetworkDelegate)
    (request : URLRequest) (callback : CompletionCallback) (new_url : GURL) : HookResult GURL :=
  if !(s.response_listeners_ ResponseEvent.kOnBeforeRequest).isSome then
    { ret := brightray_NetworkDelegate_default, delegate := s, out := new_url, effects := [] }
  else
    let r := HandleResponseEvent env now s ResponseEvent.kOnBeforeRequest request callback
      Out.new_url []
    { ret := r.ret, delegate := r.delegate, out := new_url, effects := r.effects }

/-- `AtomNetworkDelegate::OnBeforeStartTransaction(request, callback,
headers)`. -/
def OnBeforeStartTransaction (env : NetEnv) (now : Rat) (s : AtomNetworkDelegate)
    (request : URLRequest) (callback : CompletionCallback) (headers : HttpRequestHeaders) :
    HookResult HttpRequestHeaders :=
  let client_id := s.client_id_
  let headers :=
    if !client_id.isEmpty then
      HttpRequestHeaders.SetHeader headers kDevToolsEmulateNetworkConditionsClientId client_id
    else headers
  if !(s.response_listeners_ ResponseEvent.kOnBeforeSendHeaders).isSome then
    { ret := brightray_NetworkDelegate_default, delegate := s, out := headers, effects := [] }
  else
    let r := HandleResponseEvent env now s ResponseEvent.kOnBeforeSendHeaders request callback
      Out.headers [Arg.request_headers headers]
    { ret := r.ret, delegate := r.delegate, out := headers, effects := r.effects }

/-- `AtomNetworkDelegate::OnStartTransaction(request, headers)`. -/
def OnStartTransaction (env : NetEnv) (now : Rat) (s : AtomNetworkDelegate)
    (request : URLRequest) (headers : HttpRequestHeaders) : VoidResult :=
  if !(s.simple_listeners_ SimpleEvent.kOnSendHeaders).isSome then
    { delegate := s, effects := [] }
  else
    HandleSimpleEvent env now s SimpleEvent.kOnSendHeaders request [Arg.request_headers headers]

/-- `AtomNetworkDelegate::OnHeadersReceived(request, callback, original,
override, new_url)`; the out cell is the pair of `override` and `new_url`. -/
def OnHeadersReceived (env : NetEnv) (now : Rat) (s : AtomNetworkDelegate)
    (request : URLRequest) (callback : CompletionCallback) (original : HttpResponseHeaders)
    (override : Option HttpResponseHeaders) (new_url : GURL) :
    HookResult (Option HttpResponseHeaders × GURL) :=
  if !(s.response_listeners_ ResponseEvent.kOnHeadersReceived).isSome then
    { ret := brightray_NetworkDelegate_default, delegate := s, out := (override, new_url),
      effects := [] }
  else
    let r := HandleResponseEvent env now s ResponseEvent.kOnHeadersReceived request callback
      (Out.container original.GetStatusLine) [Arg.response_headers (some original)]
    { ret := r.ret, delegate := r.delegate, out := (override, new_url), effects := r.effects }

/-- `AtomNetworkDelegate::OnBeforeRedirect(request, new_location)`. -/
def OnBeforeRedirect (env : NetEnv) (now : Rat) (s : AtomNetworkDelegate)
    (request : URLRequest) (new_location : GURL) : VoidResult :=
  if !(s.simple_listeners_ SimpleEvent.kOnBeforeRedirect).isSome then
    { delegate := s, effects := [] }
  else
    HandleSimpleEvent env now s SimpleEvent.kOnBeforeRedirect request
      [Arg.location new_location, Arg.response_headers request.response_headers,
        Arg.host_port request.socket_address, Arg.from_cache request.was_cached]

/-- `AtomNetworkDelegate::OnResponseStarted(request, net_error)`. -/
def OnResponseStarted (env : NetEnv) (now : Rat) (s : AtomNetworkDelegate)
    (request : URLRequest) (net_error : Int) : VoidResult :=
  if !(s.simple_listeners_ SimpleEvent.kOnResponseStarted).isSome then
    { delegate := s, effects := [] }
  else if net_error != net_OK then
    { delegate := s, effects := [] }
  else
    HandleSimpleEvent env now s SimpleEvent.kOnResponseStarted request
      [Arg.response_headers request.response_headers, Arg.from_cache request.was_cached]

/-- `AtomNetworkDelegate::OnErrorOccurred(request, started, net_error)`. -/
def OnErrorOccurred (env : NetEnv) (now : Rat) (s : AtomNetworkDelegate)
    (request : URLRequest) (_started : Bool) (_net_error : Int) : VoidResult :=
  if !(s.simple_listeners_ SimpleEvent.kOnErrorOccurred).isSome then
    { delegate := s, effects := [] }
  else
    HandleSimpleEvent env now s SimpleEvent.kOnErrorOccurred request
      [Arg.from_cache request.was_cached, Arg.status request.status_error]

/-- The redirect test of `OnCompleted`: the request has response headers and
their code is a redirect code. -/
def isRedirectResponse (request : URLRequest) : Bool :=
  match request.response_headers with
  | some headers => HttpResponseHeaders.IsRedirectResponseCode headers.response_code
  | none => false

/-- `AtomNetworkDelegate::OnCompleted(request, started, net_error)`. -/
def OnCompleted (env : NetEnv) (now : Rat) (s : AtomNetworkDelegate)
    (request : URLRequest) (started : Bool) (net_error : Int) : VoidResult :=
  let s := { s with callbacks_ := Function.update s.callbacks_ request.identifier none }
  if net_error != net_OK then
    OnErrorOccurred env now s request started net_error
  else if isRedirectResponse request then
    { delegate := s, effects := [] }
  else if !(s.simple_listeners_ SimpleEvent.kOnCompleted).isSome then
    { delegate := s, effects := [] }
  else
    HandleSimpleEvent env now s SimpleEvent.kOnCompleted request
      [Arg.response_headers request.response_headers, Arg.from_cache request.was_cached]

/-- `AtomNetworkDelegate::OnURLRequestDestroyed(request)`. -/
def OnURLRequestDestroyed (s : AtomNetworkDelegate) (request : URLRequest) : VoidResult :=
  { delegate := { s with callbacks_ := Function.update s.callbacks_ request.identifier none }
    effects := [] }

/-- `AtomNetworkDelegate::OnListenerResultInIO<T>(id, out, response)`;
`targets` are the cells of the request engine at the time of the call. -/
def OnListenerResultInIO (env : NetEnv) (s : AtomNetworkDelegate) (id : Nat) (out : Out)
    (response : DictionaryValue) (targets : Targets) : ListenerResult :=
  match s.callbacks_ id with
  | none => { delegate := s, targets := targets, effects := [] }
  | some callback =>
    let targets := ReadFromResponseObject env response out targets
    let cancel := (response.GetBoolean "cancel").getD false
    { delegate := s
      targets := targets
      effects := [Effect.Run callback (if cancel then net_ERR_ABORTED else net_OK)] }

end AtomNetworkDelegate

/-! ## Sequences of responses, and the inputs of the examples -/

/-- The responses of the list delivered for `id` one after the other, each by
one call of `OnListenerResultInIO`, with nothing else happening in between;
the effects are collected in order. -/
def deliverResponses (env : NetEnv) (id : Nat) :
    List (Out × DictionaryValue) → AtomNetworkDelegate → Targets → ListenerResult
  | [], s, targets => { delegate := s, targets := targets, effects := [] }
  | (out, response) :: rest, s, targets =>
    let first := AtomNetworkDelegate.OnListenerResultInIO env s id out response targets
    let others := deliverResponses env id rest first.delegate first.targets
    { delegate := others.delegate
      targets := others.targets
      effects := first.effects ++ others.effects }

/-- A delegate with one pending entry: identifier 7 holds the continuation
with handle 1. -/
def pendingSeven : AtomNetworkDelegate :=
  { AtomNetworkDelegate.new with
    callbacks_ := Function.update (fun _ => none) 7 (some (Callback.bound 1)) }

/-- Parsing routines for the examples: the status line is kept as given with
code 200, and no header line is accepted. -/
def exampleEnv : NetEnv :=
  { ParseStatusLine := fun line => (line, 200)
    ParseHeaderLine := fun _ => none
    ErrorToString := fun _ => ""
    ENABLE_EXTENSIONS := true }

/-- The cells of the examples: no redirect, the headers `A: 1`, `B: 2`, no
override. -/
def exampleTargets : Targets :=
  { new_url := GURL.mk "", headers := [("A", "1"), ("B", "2")], override := none }

/-- The request of the examples: identifier 7, nothing known beyond its
URL and method. -/
def exampleRequest : URLRequest :=
  { identifier := 7
    url := GURL.mk "http://a.test/"
    method := "GET"
    site_for_cookies := GURL.mk ""
    resource_request_info := none
    render_frame_for_request := none
    websocket_info := none
    remote_endpoint := none
    response_headers := none
    socket_address := { host := "", port := 0 }
    was_cached := false
    status_error := 0 }

/-- A fresh delegate on which the listener with handle 9 is registered for
`kOnBeforeRequest` with the empty pattern set. -/
def listening : AtomNetworkDelegate :=
  AtomNetworkDelegate.SetResponseListenerInIO AtomNetworkDelegate.new
    ResponseEvent.kOnBeforeRequest [] (Callback.bound 9)

/-- The delegate `pendingSeven` on which the listener with handle 9 is
registered for `kOnBeforeRequest` with the empty pattern set. -/
def pendingSevenListening : AtomNetworkDelegate :=
  AtomNetworkDelegate.SetResponseListenerInIO pendingSeven
    ResponseEvent.kOnBeforeRequest [] (Callback.bound 9)

/-- A pattern that matches no URL. -/
def matchNothing : URLPattern :=
  { MatchesURL := fun _ => false }

/-- A fresh delegate whose emulation client id is `c1`; no listener is
registered. -/
def emulating : AtomNetworkDelegate :=
  AtomNetworkDelegate.SetDevToolsNetworkEmulationClientId AtomNetworkDelegate.new "c1"

/-- A fresh delegate on which the listener with handle 9 is registered for
`kOnBeforeRequest` and the listener with handle 8 for `kOnSendHeaders`, each
with the one pattern that matches nothing. -/
def filteredOut : AtomNetworkDelegate :=
  AtomNetworkDelegate.SetSimpleListenerInIO
    ( AtomNetworkDelegate.SetResponseListenerInIO AtomNetworkDelegate.new
      ResponseEvent.kOnBeforeRequest [matchNothing] (Callback.bound 9))
    SimpleEvent.kOnSendHeaders [matchNothing] (Callback.bound 8)

/-- The (name, value) pairs that a mapping from header name to list of values
lists: for each entry in order, its values in order. -/
def headerPairs : List (String × List String) → List (String × String)
  | [] => []
  | (name, values) :: rest => values.map (fun value => (name, value)) ++ headerPairs rest

/-- A blank or a tab, the linear white space of a header line. -/
def isLWS (c : Char) : Bool :=
  c == ' ' || c == '\t'

/-- The characters before the first colon and those after it, when there is a
colon. -/
def splitAtColon : List Char → Option (List Char × List Char)
  | [] => none
  | c :: cs =>
    if c = ':' then some ([], cs)
    else
      match splitAtColon cs with
      | some (name, value) => some (c :: name, value)
      | none => none

/-- The linear white space at both ends dropped. -/
def trimLWS (cs : List Char) : List Char :=
  ((cs.dropWhile isLWS).reverse.dropWhile isLWS).reverse

/-- A header-line parser for the examples, in the manner of
`net::HttpUtil::HeadersIterator`: the name is what stands before the first
colon and the value what stands after it, both without the white space at
their ends; a line without colon, or whose name is empty or starts with white
space, is skipped. -/
def parseNameValue (line : String) : Option (String × String) :=
  match splitAtColon line.data with
  | none => none
  | some ([], _) => none
  | some (c :: name, value) =>
    if isLWS c then none
    else some (String.mk (trimLWS (c :: name)), String.mk (trimLWS value))

/-- Parsing routines for the examples on response headers: the status line is
kept as given with code 200, and header lines are read by `parseNameValue`. -/
def parsingEnv : NetEnv :=
  { ParseStatusLine := fun line => (line, 200)
    ParseHeaderLine := parseNameValue
    ErrorToString := fun _ => ""
    ENABLE_EXTENSIONS := true }

/-- A fresh delegate whose emulation client id is `c1` and on which the
listener with handle 9 is registered for `kOnBeforeSendHeaders` with the empty
pattern set. -/
def emulatingListening : AtomNetworkDelegate :=
  AtomNetworkDelegate.SetResponseListenerInIO emulating
    ResponseEvent.kOnBeforeSendHeaders [] (Callback.bound 9)

/-- Two records list the same keys in the same order and hold the same value
under every key other than `timestamp`. -/
def SameOutsideTimestamp (d1 d2 : DictionaryValue) : Prop :=
  List.Forall₂ (fun a b => a.1 = b.1 ∧ (a.1 ≠ "timestamp" → a.2 = b.2)) d1 d2

/-- The values of the header lines with the name `name`, in order. -/
def valuesOf (name : String) (lines : List (String × String)) : List String :=
  (lines.filter (fun l => l.1 = name)).map Prod.snd

/-! ## Lemmas on the library models -/

namespace DictionaryValue

/-- The path `cancel` has no dot: the lookup is a plain key lookup. -/
theorem Get_cancel (d : DictionaryValue) : Get d "cancel" = FindKey d "cancel" := by
  rfl

/-- The path `requestHeaders` has no dot: the lookup is a plain key lookup. -/
theorem Get_requestHeaders (d : DictionaryValue) :
    Get d "requestHeaders" = FindKey d "requestHeaders" := by
  rfl

/-- `GetBoolean` at `cancel` gives `true` exactly when the key holds the
boolean `true`. -/
theorem GetBoolean_cancel_eq_true (d : DictionaryValue) :
    GetBoolean d "cancel" = some true ↔ FindKey d "cancel" = some (Value.boolean true) := by
  unfold GetBoolean
  rw [Get_cancel]
  cases FindKey d "cancel" with
  | none => simp
  | some v => cases v <;> simp [Value.GetAsBoolean]

end DictionaryValue

/-- The comparison of header names is symmetric. -/
theorem EqualsCaseInsensitiveASCII_comm (a b : String) :
    EqualsCaseInsensitiveASCII a b = EqualsCaseInsensitiveASCII b a := by
  unfold EqualsCaseInsensitiveASCII
  rw [Bool.eq_iff_iff]
  simp only [beq_iff_eq]
  exact eq_comm

namespace HttpRequestHeaders

/-- Setting a header whose name occurs nowhere in the set appends it. -/
theorem SetHeader_of_fresh (headers : HttpRequestHeaders) (key value : String)
    (h : ∀ e ∈ headers, EqualsCaseInsensitiveASCII key e.1 = false) :
    SetHeader headers key value = headers ++ [(key, value)] := by
  induction headers with
  | nil => rfl
  | cons e rest ih =>
    obtain ⟨k, v⟩ := e
    have hk : EqualsCaseInsensitiveASCII key k = false := h (k, v) (List.mem_cons_self _ _)
    have hrest : ∀ e ∈ rest, EqualsCaseInsensitiveASCII key e.1 = false :=
      fun e he => h e (List.mem_cons_of_mem _ he)
    simp [SetHeader, hk, ih hrest]

end HttpRequestHeaders

/-- The loop over a `requestHeaders` dictionary of string values whose names
differ pairwise (ignoring ASCII case) from one another and from the names
already set appends the entries in order. -/
theorem ReadFromResponseObject_headers_loop_append (D : List (String × String)) :
    ∀ headers : HttpRequestHeaders,
      D.Pairwise (fun a b => EqualsCaseInsensitiveASCII a.1 b.1 = false) →
      (∀ e ∈ headers, ∀ d ∈ D, EqualsCaseInsensitiveASCII d.1 e.1 = false) →
      ReadFromResponseObject_headers.loop (D.map fun e => (e.1, Value.string e.2)) headers =
        headers ++ D := by
  induction D with
  | nil => intro headers _ _; simp [ReadFromResponseObject_headers.loop]
  | cons d rest ih =>
    intro headers hpair hfresh
    obtain ⟨k, v⟩ := d
    rw [List.pairwise_cons] at hpair
    have hset : HttpRequestHeaders.SetHeader headers k v = headers ++ [(k, v)] :=
      HttpRequestHeaders.SetHeader_of_fresh headers k v
        (fun e he => hfresh e he (k, v) (List.mem_cons_self _ _))
    have hnext : ∀ e ∈ headers ++ [(k, v)], ∀ d ∈ rest,
        EqualsCaseInsensitiveASCII d.1 e.1 = false := by
      intro e he d hd
      rcases List.mem_append.mp he with he | he
      · exact hfresh e he d (List.mem_cons_of_mem _ hd)
      · rw [List.mem_singleton] at he
        subst he
        rw [EqualsCaseInsensitiveASCII_comm]
        exact hpair.1 d hd
    simp only [List.map_cons, ReadFromResponseObject_headers.loop, Value.GetAsString]
    rw [hset, ih (headers ++ [(k, v)]) hpair.2 hnext]
    simp

/-- The URL loop finds a match exactly when some pattern matches. -/
theorem MatchesFilterCondition_loop_iff (url : GURL) (patterns : URLPatterns) :
    MatchesFilterCondition.loop url patterns = true ↔
      ∃ pattern ∈ patterns, pattern.MatchesURL url = true := by
  induction patterns with
  | nil => simp [MatchesFilterCondition.loop]
  | cons p rest ih =>
    by_cases h : p.MatchesURL url = true
    · simp [MatchesFilterCondition.loop, h]
    · simp [MatchesFilterCondition.loop, h, ih]

/-- The filter on a non-empty pattern set is the loop over the patterns. -/
theorem MatchesFilterCondition_of_nonempty (request : URLRequest) (patterns : URLPatterns)
    (hne : patterns ≠ []) :
    MatchesFilterCondition request patterns =
      MatchesFilterCondition.loop request.url patterns := by
  cases patterns with
  | nil => exact absurd rfl hne
  | cons p rest => simp [MatchesFilterCondition]

/-! ## The URL filter (C1) -/

/-- Claim C1: for every request and every pattern set, `MatchesFilterCondition`
returns true when the pattern set is empty, and otherwise returns true if and
only if at least one pattern of the set matches the URL of the request. -/
theorem MatchesFilterCondition_iff (request : URLRequest) (patterns : URLPatterns) :
    (patterns = [] → MatchesFilterCondition request patterns = true) ∧
      (patterns ≠ [] →
        (MatchesFilterCondition request patterns = true ↔
          ∃ pattern ∈ patterns, pattern.MatchesURL request.url = true)) := by
  constructor
  · intro h
    subst h
    rfl
  · intro hne
    rw [MatchesFilterCondition_of_nonempty request patterns hne,
      MatchesFilterCondition_loop_iff]

/-- Claim C1 at concrete inputs: the empty pattern set lets the request of the
examples through, and the set of the one pattern that matches nothing does
not. -/
theorem MatchesFilterCondition_iff_witness :
    MatchesFilterCondition exampleRequest [] = true ∧
      (MatchesFilterCondition exampleRequest [matchNothing] = true ↔
        ∃ pattern ∈ [matchNothing], pattern.MatchesURL exampleRequest.url = true) :=
  ⟨(MatchesFilterCondition_iff exampleRequest []).1 rfl,
    (MatchesFilterCondition_iff exampleRequest [matchNothing]).2 (by simp)⟩

/-! ## Request headers are replaced (C2) -/

/-- Claim C2, as the claim states it, fails: with the outgoing headers
`A: 1`, `B: 2` and the `requestHeaders` mapping `A: "1"`, `a: "2"` (two
different dictionary keys), the header set ends as the single header `A: 2`,
which is not the entry list of the mapping. -/
theorem ReadFromResponseObject_headers_case_collision :
    ReadFromResponseObject_headers
        [("requestHeaders",
          Value.dictionary [("A", Value.string "1"), ("a", Value.string "2")])]
        [("A", "1"), ("B", "2")] = [("A", "2")] ∧
      ReadFromResponseObject_headers
        [("requestHeaders",
          Value.dictionary [("A", Value.string "1"), ("a", Value.string "2")])]
        [("A", "1"), ("B", "2")] ≠ [("A", "1"), ("a", "2")] := by
  decide

/-- Claim C2, amended: for every outgoing header set `H` and every response
whose `requestHeaders` value is a mapping `D` of string values whose names
differ pairwise ignoring ASCII case, `ReadFromResponseObject(response,
headers)` leaves the header set equal to the entry list of `D`, in the order
of `D`: nothing of `H` is left (full replace, not merge). -/
theorem ReadFromResponseObject_headers_replace (response : DictionaryValue)
    (H : HttpRequestHeaders) (D : List (String × String))
    (hD : response.GetDictionary "requestHeaders" =
      some (D.map fun e => (e.1, Value.string e.2)))
    (hnames : D.Pairwise (fun a b => EqualsCaseInsensitiveASCII a.1 b.1 = false)) :
    ReadFromResponseObject_headers response H = D := by
  unfold ReadFromResponseObject_headers
  rw [hD]
  simp only [HttpRequestHeaders.Clear]
  rw [ReadFromResponseObject_headers_loop_append D [] hnames (by simp)]
  simp

/-- The example of claim C2: the headers `A: 1`, `B: 2` and the mapping
`A: "3"` give exactly `A: 3`. -/
theorem ReadFromResponseObject_headers_replace_witness :
    ReadFromResponseObject_headers
      [("requestHeaders", Value.dictionary [("A", Value.string "3")])]
      [("A", "1"), ("B", "2")] = [("A", "3")] :=
  ReadFromResponseObject_headers_replace
    [("requestHeaders", Value.dictionary [("A", Value.string "3")])]
    [("A", "1"), ("B", "2")] [("A", "3")] (by rfl) (by simp)

/-! ## The status handed to the continuation (C3) -/

/-- Claim C3: when the table holds the continuation `callback` for `id`, a
response delivered to `OnListenerResultInIO` for `id` runs `callback` once,
with `net::ERR_ABORTED` exactly when the `cancel` key of the response holds
the boolean true, and with `net::OK` in every other case (key absent, false,
or not a boolean). -/
theorem OnListenerResult_status (env : NetEnv) (s : AtomNetworkDelegate) (id : Nat)
    (out : Out) (response : DictionaryValue) (targets : Targets)
    (callback : CompletionCallback) (hpending : s.callbacks_ id = some callback) :
    ∃ status : Int,
      ( AtomNetworkDelegate.OnListenerResultInIO env s id out response targets).effects =
          [Effect.Run callback status] ∧
        (status = net_ERR_ABORTED ↔
          response.FindKey "cancel" = some (Value.boolean true)) ∧
        (status = net_OK ↔ response.FindKey "cancel" ≠ some (Value.boolean true)) := by
  unfold AtomNetworkDelegate.OnListenerResultInIO
  rw [hpending]
  by_cases hc : response.FindKey "cancel" = some (Value.boolean true)
  · have hb : response.GetBoolean "cancel" = some true :=
      (DictionaryValue.GetBoolean_cancel_eq_true response).mpr hc
    refine ⟨net_ERR_ABORTED, ?_, ?_, ?_⟩
    · simp [hb]
    · simp [hc]
    · simp [hc, net_ERR_ABORTED, net_OK]
  · have hb : response.GetBoolean "cancel" ≠ some true :=
      fun h => hc ((DictionaryValue.GetBoolean_cancel_eq_true response).mp h)
    have hd : (response.GetBoolean "cancel").getD false = false := by
      cases hg : response.GetBoolean "cancel" with
      | none => rfl
      | some b =>
        cases b with
        | false => rfl
        | true => exact absurd hg hb
    refine ⟨net_OK, ?_, ?_, ?_⟩
    · simp [hd]
    · simp [hc, net_ERR_ABORTED, net_OK]
    · simp [hc]

/-- Claim C3 at a concrete input: the response `cancel: true` for the pending
identifier 7 runs its continuation with some status characterised as in the
claim. -/
theorem OnListenerResult_status_witness :
    ∃ status : Int,
      ( AtomNetworkDelegate.OnListenerResultInIO exampleEnv pendingSeven 7 Out.new_url
          [("cancel", Value.boolean true)] exampleTargets).effects =
          [Effect.Run (Callback.bound 1) status] ∧
        (status = net_ERR_ABORTED ↔
          DictionaryValue.FindKey [("cancel", Value.boolean true)] "cancel" =
            some (Value.boolean true)) ∧
        (status = net_OK ↔
          DictionaryValue.FindKey [("cancel", Value.boolean true)] "cancel" ≠
            some (Value.boolean true)) :=
  OnListenerResult_status exampleEnv pendingSeven 7 Out.new_url
    [("cancel", Value.boolean true)] exampleTargets (Callback.bound 1) (by rfl)

/-! ## Responses after the first one (C4) -/

/-- A response for a pending identifier leaves the delegate as it was. -/
theorem OnListenerResult_delegate (env : NetEnv) (s : AtomNetworkDelegate) (id : Nat)
    (out : Out) (response : DictionaryValue) (targets : Targets) :
    ( AtomNetworkDelegate.OnListenerResultInIO env s id out response targets).delegate = s := by
  unfold AtomNetworkDelegate.OnListenerResultInIO
  cases s.callbacks_ id <;> rfl

/-- A response for an identifier without an entry does nothing. -/
theorem OnListenerResult_of_absent (env : NetEnv) (s : AtomNetworkDelegate) (id : Nat)
    (out : Out) (response : DictionaryValue) (targets : Targets)
    (habsent : s.callbacks_ id = none) :
    ( AtomNetworkDelegate.OnListenerResultInIO env s id out response targets).effects = [] ∧
      ( AtomNetworkDelegate.OnListenerResultInIO env s id out response targets).targets =
        targets := by
  unfold AtomNetworkDelegate.OnListenerResultInIO
  rw [habsent]
  exact ⟨rfl, rfl⟩

/-- A response for a pending identifier runs the continuation, once. -/
theorem OnListenerResult_of_pending (env : NetEnv) (s : AtomNetworkDelegate) (id : Nat)
    (out : Out) (response : DictionaryValue) (targets : Targets)
    (callback : CompletionCallback) (hpending : s.callbacks_ id = some callback) :
    ∃ status : Int,
      ( AtomNetworkDelegate.OnListenerResultInIO env s id out response targets).effects =
        [Effect.Run callback status] := by
  unfold AtomNetworkDelegate.OnListenerResultInIO
  rw [hpending]
  exact ⟨_, rfl⟩

/-- Claim C4, as the claim states it, fails: the response for the pending
identifier 7 leaves its entry in the table, and of two responses delivered
for 7 each runs the continuation, which is so run twice. -/
theorem duplicate_response_runs_again :
    ( AtomNetworkDelegate.OnListenerResultInIO exampleEnv pendingSeven 7 Out.new_url []
        exampleTargets).delegate.callbacks_ 7 = some (Callback.bound 1) ∧
      (deliverResponses exampleEnv 7 [(Out.new_url, []), (Out.new_url, [])] pendingSeven
        exampleTargets).effects =
        [Effect.Run (Callback.bound 1) net_OK, Effect.Run (Callback.bound 1) net_OK] := by
  constructor <;> rfl

/-- Claim C4, amended: when the table holds the continuation `callback` for
`id`, every response delivered for `id` runs `callback` and leaves the table
as it is, entry included: a sequence of responses for `id` leaves the
delegate unchanged and runs `callback` once for each response of the
sequence, and does nothing else. -/
theorem deliverResponses_runs_each (env : NetEnv) (id : Nat)
    (responses : List (Out × DictionaryValue)) (s : AtomNetworkDelegate) (targets : Targets)
    (callback : CompletionCallback) (hpending : s.callbacks_ id = some callback) :
    (deliverResponses env id responses s targets).delegate = s ∧
      (deliverResponses env id responses s targets).effects.length = responses.length ∧
      ∀ e ∈ (deliverResponses env id responses s targets).effects,
        ∃ status : Int, e = Effect.Run callback status := by
  induction responses generalizing targets with
  | nil => simp [deliverResponses]
  | cons r rest ih =>
    obtain ⟨out, response⟩ := r
    have hd := OnListenerResult_delegate env s id out response targets
    obtain ⟨status, hrun⟩ := OnListenerResult_of_pending env s id out response targets
      callback hpending
    simp only [deliverResponses, hd, hrun]
    obtain ⟨h1, h2, h3⟩ := ih
      ( AtomNetworkDelegate.OnListenerResultInIO env s id out response targets).targets
    refine ⟨h1, ?_, ?_⟩
    · simp [h2]
    · intro e he
      rcases List.mem_append.mp he with he | he
      · exact ⟨status, by simpa using he⟩
      · exact h3 e he

/-- Claim C4, amended, at a concrete input: three responses for the pending
identifier 7. -/
theorem deliverResponses_runs_each_witness :
    (deliverResponses exampleEnv 7
        [(Out.new_url, []), (Out.headers, [("cancel", Value.boolean true)]), (Out.new_url, [])]
        pendingSeven exampleTargets).delegate = pendingSeven ∧
      (deliverResponses exampleEnv 7
        [(Out.new_url, []), (Out.headers, [("cancel", Value.boolean true)]), (Out.new_url, [])]
        pendingSeven exampleTargets).effects.length = 3 ∧
      ∀ e ∈ (deliverResponses exampleEnv 7
        [(Out.new_url, []), (Out.headers, [("cancel", Value.boolean true)]), (Out.new_url, [])]
        pendingSeven exampleTargets).effects,
        ∃ status : Int, e = Effect.Run (Callback.bound 1) status :=
  deliverResponses_runs_each exampleEnv 7
    [(Out.new_url, []), (Out.headers, [("cancel", Value.boolean true)]), (Out.new_url, [])]
    pendingSeven exampleTargets (Callback.bound 1) (by rfl)

/-! ## Requests that go away while parked (C5) -/

/-- A dispatch that returns `net::ERR_IO_PENDING` has stored the completion
callback under the identifier of the request. -/
theorem HandleResponseEvent_pending_stores (env : NetEnv) (now : Rat)
    (s : AtomNetworkDelegate) (type : ResponseEvent) (request : URLRequest)
    (callback : CompletionCallback) (out : Out) (args : List Arg)
    (hret : (AtomNetworkDelegate.HandleResponseEvent env now s type request callback out
      args).ret = net_ERR_IO_PENDING) :
    (AtomNetworkDelegate.HandleResponseEvent env now s type request callback out
      args).delegate.callbacks_ request.identifier = some callback := by
  unfold AtomNetworkDelegate.HandleResponseEvent at hret ⊢
  cases hm : MatchesFilterCondition request (s.response_listeners_at type).1.url_patterns with
  | false => simp [hm, net_OK, net_ERR_IO_PENDING] at hret
  | true => simp [hm]

/-- A notify-only dispatch leaves the pending table alone and runs no
completion callback. -/
theorem HandleSimpleEvent_callbacks (env : NetEnv) (now : Rat) (s : AtomNetworkDelegate)
    (type : SimpleEvent) (request : URLRequest) (args : List Arg) :
    (AtomNetworkDelegate.HandleSimpleEvent env now s type request args).delegate.callbacks_ =
        s.callbacks_ ∧
      ∀ e ∈ (AtomNetworkDelegate.HandleSimpleEvent env now s type request args).effects,
        e.isRun = false := by
  unfold AtomNetworkDelegate.HandleSimpleEvent AtomNetworkDelegate.simple_listeners_at
  cases hl : s.simple_listeners_ type with
  | none =>
    cases hm : MatchesFilterCondition request SimpleListenerInfo.empty.url_patterns <;>
      simp [hm, Effect.isRun]
  | some info =>
    cases hm : MatchesFilterCondition request info.url_patterns <;> simp [hm, Effect.isRun]

/-- `OnErrorOccurred` leaves the pending table alone and runs no completion
callback. -/
theorem OnErrorOccurred_callbacks (env : NetEnv) (now : Rat) (s : AtomNetworkDelegate)
    (request : URLRequest) (started : Bool) (net_error : Int) :
    (AtomNetworkDelegate.OnErrorOccurred env now s request started net_error).delegate.callbacks_ =
        s.callbacks_ ∧
      ∀ e ∈ (AtomNetworkDelegate.OnErrorOccurred env now s request started net_error).effects,
        e.isRun = false := by
  unfold AtomNetworkDelegate.OnErrorOccurred
  split
  · simp
  · exact HandleSimpleEvent_callbacks env now s _ request _

/-- `OnCompleted` erases the entry of the request, leaves the other entries
alone and runs no completion callback. -/
theorem OnCompleted_callbacks (env : NetEnv) (now : Rat) (s : AtomNetworkDelegate)
    (request : URLRequest) (started : Bool) (net_error : Int) :
    (AtomNetworkDelegate.OnCompleted env now s request started net_error).delegate.callbacks_ =
        Function.update s.callbacks_ request.identifier none ∧
      ∀ e ∈ (AtomNetworkDelegate.OnCompleted env now s request started net_error).effects,
        e.isRun = false := by
  unfold AtomNetworkDelegate.OnCompleted
  dsimp only
  split
  · exact OnErrorOccurred_callbacks env now _ request started net_error
  · split
    · simp
    · split
      · simp
      · exact HandleSimpleEvent_callbacks env now _ _ request _

/-- Claim C5: let a request be parked by an interceptable dispatch (the
dispatch returned `net::ERR_IO_PENDING`, so the table holds its completion
callback). If `OnURLRequestDestroyed` or `OnCompleted` then runs for the
request, the entry of its identifier is removed and no completion callback is
run, and a response delivered afterwards to `OnListenerResultInIO` for that
identifier runs no callback and leaves every outcome cell (redirect URL,
request headers, response header override) as it was. -/
theorem late_response_is_dropped (env : NetEnv) (now later : Rat) (s0 s : AtomNetworkDelegate)
    (type : ResponseEvent) (request : URLRequest) (callback : CompletionCallback)
    (out : Out) (args : List Arg) (started : Bool) (net_error : Int)
    (response : DictionaryValue) (targets : Targets)
    (hparked : (AtomNetworkDelegate.HandleResponseEvent env now s0 type request callback out
      args).ret = net_ERR_IO_PENDING)
    (hs : s = (AtomNetworkDelegate.HandleResponseEvent env now s0 type request callback out
      args).delegate) :
    s.callbacks_ request.identifier = some callback ∧
      ((AtomNetworkDelegate.OnURLRequestDestroyed s request).effects = [] ∧
        (AtomNetworkDelegate.OnURLRequestDestroyed s request).delegate.callbacks_
          request.identifier = none ∧
        ( AtomNetworkDelegate.OnListenerResultInIO env
          (AtomNetworkDelegate.OnURLRequestDestroyed s request).delegate
          request.identifier out response targets).effects = [] ∧
        ( AtomNetworkDelegate.OnListenerResultInIO env
          (AtomNetworkDelegate.OnURLRequestDestroyed s request).delegate
          request.identifier out response targets).targets = targets) ∧
      ((∀ e ∈ (AtomNetworkDelegate.OnCompleted env later s request started net_error).effects,
          e.isRun = false) ∧
        (AtomNetworkDelegate.OnCompleted env later s request started
          net_error).delegate.callbacks_ request.identifier = none ∧
        ( AtomNetworkDelegate.OnListenerResultInIO env
          (AtomNetworkDelegate.OnCompleted env later s request started net_error).delegate
          request.identifier out response targets).effects = [] ∧
        ( AtomNetworkDelegate.OnListenerResultInIO env
          (AtomNetworkDelegate.OnCompleted env later s request started net_error).delegate
          request.identifier out response targets).targets = targets) := by
  have hstored : s.callbacks_ request.identifier = some callback := by
    rw [hs]
    exact HandleResponseEvent_pending_stores env now s0 type request callback out args hparked
  have hdestroyed : (AtomNetworkDelegate.OnURLRequestDestroyed s request).delegate.callbacks_
      request.identifier = none := by
    simp [AtomNetworkDelegate.OnURLRequestDestroyed]
  have hcompleted : (AtomNetworkDelegate.OnCompleted env later s request started
      net_error).delegate.callbacks_ request.identifier = none := by
    rw [(OnCompleted_callbacks env later s request started net_error).1]
    simp
  refine ⟨hstored, ⟨rfl, hdestroyed, ?_⟩, ⟨?_, hcompleted, ?_⟩⟩
  · exact OnListenerResult_of_absent env _ _ out response targets hdestroyed
  · exact (OnCompleted_callbacks env later s request started net_error).2
  · exact OnListenerResult_of_absent env _ _ out response targets hcompleted

/-- Claim C5 at a concrete input: the request 7 is parked by the dispatch of
`kOnBeforeRequest` on the delegate `listening`, then destroyed or completed. -/
theorem late_response_is_dropped_witness :
    (AtomNetworkDelegate.HandleResponseEvent exampleEnv 0 listening
        ResponseEvent.kOnBeforeRequest exampleRequest (Callback.bound 1) Out.new_url
        []).delegate.callbacks_ exampleRequest.identifier = some (Callback.bound 1) ∧
      ( AtomNetworkDelegate.OnListenerResultInIO exampleEnv
        (AtomNetworkDelegate.OnURLRequestDestroyed
          (AtomNetworkDelegate.HandleResponseEvent exampleEnv 0 listening
            ResponseEvent.kOnBeforeRequest exampleRequest (Callback.bound 1) Out.new_url
            []).delegate exampleRequest).delegate
        exampleRequest.identifier Out.new_url [("redirectURL", Value.string "http://b.test/")]
        exampleTargets).targets = exampleTargets :=
  have h := late_response_is_dropped exampleEnv 0 1 listening _
    ResponseEvent.kOnBeforeRequest exampleRequest (Callback.bound 1) Out.new_url [] true 0
    [("redirectURL", Value.string "http://b.test/")] exampleTargets (by rfl) rfl
  ⟨h.1, h.2.1.2.2.2⟩

/-! ## A second dispatch for a pending identifier (C6) and the parking of a
request (C9) -/

/-- A dispatch whose registration matches the URL: the whole result. -/
theorem HandleResponseEvent_of_match (env : NetEnv) (now : Rat) (s : AtomNetworkDelegate)
    (type : ResponseEvent) (request : URLRequest) (callback : CompletionCallback)
    (out : Out) (args : List Arg) (info : ResponseListenerInfo)
    (hinfo : s.response_listeners_ type = some info)
    (hmatch : MatchesFilterCondition request info.url_patterns = true) :
    AtomNetworkDelegate.HandleResponseEvent env now s type request callback out args =
      { ret := net_ERR_IO_PENDING
        delegate :=
          { s with
            callbacks_ := Function.update s.callbacks_ request.identifier (some callback) }
        out := ()
        effects := [Effect.PostResponseTask
          { listener := info.listener
            details := FillDetailsObject env now [] (Arg.request request) args
            frame_tree_node_id := GetFrameTreeNodeId request (-1)
            render_frame_id := (GetRenderFrameIdAndProcessId env request (-1) (-1)).1
            render_process_id := (GetRenderFrameIdAndProcessId env request (-1) (-1)).2
            response := { id := request.identifier, out := out } }] } := by
  simp [AtomNetworkDelegate.HandleResponseEvent, AtomNetworkDelegate.response_listeners_at,
    hinfo, hmatch]

/-- A dispatch whose registration does not match the URL: the whole
result. -/
theorem HandleResponseEvent_of_no_match (env : NetEnv) (now : Rat) (s : AtomNetworkDelegate)
    (type : ResponseEvent) (request : URLRequest) (callback : CompletionCallback)
    (out : Out) (args : List Arg) (info : ResponseListenerInfo)
    (hinfo : s.response_listeners_ type = some info)
    (hmatch : MatchesFilterCondition request info.url_patterns = false) :
    AtomNetworkDelegate.HandleResponseEvent env now s type request callback out args =
      { ret := net_OK, delegate := s, out := (), effects := [] } := by
  simp [AtomNetworkDelegate.HandleResponseEvent, AtomNetworkDelegate.response_listeners_at,
    hinfo, hmatch]

/-- Claim C6, as the claim states it, fails: on a delegate whose table holds
the continuation with handle 1 for identifier 7, a dispatch for request 7 with
the completion callback with handle 2 is not rejected: it returns
`net::ERR_IO_PENDING` and the table then holds the callback with handle 2, not
the one with handle 1. -/
theorem second_dispatch_replaces_entry :
    pendingSevenListening.callbacks_ 7 = some (Callback.bound 1) ∧
      (AtomNetworkDelegate.HandleResponseEvent exampleEnv 0 pendingSevenListening
        ResponseEvent.kOnBeforeRequest exampleRequest (Callback.bound 2) Out.new_url
        []).ret = net_ERR_IO_PENDING ∧
      (AtomNetworkDelegate.HandleResponseEvent exampleEnv 0 pendingSevenListening
        ResponseEvent.kOnBeforeRequest exampleRequest (Callback.bound 2) Out.new_url
        []).delegate.callbacks_ 7 = some (Callback.bound 2) ∧
      (AtomNetworkDelegate.HandleResponseEvent exampleEnv 0 pendingSevenListening
        ResponseEvent.kOnBeforeRequest exampleRequest (Callback.bound 2) Out.new_url
        []).delegate.callbacks_ 7 ≠ some (Callback.bound 1) := by
  decide

/-- Claim C6, amended: when an interceptable dispatch (`HandleResponseEvent`)
that reaches its listener runs for a request whose identifier already has a
pending entry, the dispatch is not rejected: the continuation stored for the
identifier is replaced by the new completion callback, the entries of all
other identifiers and the registrations stay as they are, and the dispatch
returns `net::ERR_IO_PENDING` as it does for an identifier without entry. -/
theorem HandleResponseEvent_overwrites_pending (env : NetEnv) (now : Rat)
    (s : AtomNetworkDelegate) (type : ResponseEvent) (request : URLRequest)
    (callback previous : CompletionCallback) (out : Out) (args : List Arg)
    (info : ResponseListenerInfo)
    (hpending : s.callbacks_ request.identifier = some previous)
    (hinfo : s.response_listeners_ type = some info)
    (hmatch : MatchesFilterCondition request info.url_patterns = true) :
    (callback ≠ previous →
        (AtomNetworkDelegate.HandleResponseEvent env now s type request callback out
          args).delegate.callbacks_ request.identifier ≠ s.callbacks_ request.identifier) ∧
      (AtomNetworkDelegate.HandleResponseEvent env now s type request callback out
        args).ret = net_ERR_IO_PENDING ∧
      (AtomNetworkDelegate.HandleResponseEvent env now s type request callback out
        args).delegate.callbacks_ request.identifier = some callback ∧
      (∀ id : Nat, id ≠ request.identifier →
        (AtomNetworkDelegate.HandleResponseEvent env now s type request callback out
          args).delegate.callbacks_ id = s.callbacks_ id) ∧
      (AtomNetworkDelegate.HandleResponseEvent env now s type request callback out
        args).delegate.response_listeners_ = s.response_listeners_ := by
  rw [HandleResponseEvent_of_match env now s type request callback out args info hinfo hmatch]
  refine ⟨?_, rfl, ?_, ?_, rfl⟩
  · intro hne
    rw [hpending]
    simpa using hne
  · simp
  · intro id hid
    simp [Function.update, hid]

/-- Claim C6, amended, at a concrete input: the dispatch for request 7 on the
delegate `pendingSevenListening`. -/
theorem HandleResponseEvent_overwrites_pending_witness :
    (AtomNetworkDelegate.HandleResponseEvent exampleEnv 0 pendingSevenListening
        ResponseEvent.kOnBeforeRequest exampleRequest (Callback.bound 2) Out.new_url
        []).delegate.callbacks_ exampleRequest.identifier ≠
        pendingSevenListening.callbacks_ exampleRequest.identifier ∧
      (AtomNetworkDelegate.HandleResponseEvent exampleEnv 0 pendingSevenListening
        ResponseEvent.kOnBeforeRequest exampleRequest (Callback.bound 2) Out.new_url
        []).delegate.callbacks_ exampleRequest.identifier = some (Callback.bound 2) :=
  have h := HandleResponseEvent_overwrites_pending exampleEnv 0 pendingSevenListening
    ResponseEvent.kOnBeforeRequest exampleRequest (Callback.bound 2) (Callback.bound 1)
    Out.new_url [] { url_patterns := [], listener := Callback.bound 9 }
    (by rfl) (by rfl) (by rfl)
  ⟨h.1 (by decide), h.2.2.1⟩

/-- Claim C9: for an interceptable kind with a registration whose patterns
match the URL of the request, `HandleResponseEvent` stores the supplied
completion callback under the identifier of the request (and changes no other
entry), posts exactly one task, which runs the registered listener on the
details of the request with a response callback bound to that identifier and
to `out`, returns `net::ERR_IO_PENDING`, and does not run the completion
callback. -/
theorem HandleResponseEvent_parks (env : NetEnv) (now : Rat) (s : AtomNetworkDelegate)
    (type : ResponseEvent) (request : URLRequest) (callback : CompletionCallback)
    (out : Out) (args : List Arg) (info : ResponseListenerInfo)
    (hinfo : s.response_listeners_ type = some info)
    (hmatch : MatchesFilterCondition request info.url_patterns = true) :
    (AtomNetworkDelegate.HandleResponseEvent env now s type request callback out
        args).ret = net_ERR_IO_PENDING ∧
      (AtomNetworkDelegate.HandleResponseEvent env now s type request callback out
        args).delegate.callbacks_ request.identifier = some callback ∧
      (∀ id : Nat, id ≠ request.identifier →
        (AtomNetworkDelegate.HandleResponseEvent env now s type request callback out
          args).delegate.callbacks_ id = s.callbacks_ id) ∧
      (∃ task : ResponseTask,
        (AtomNetworkDelegate.HandleResponseEvent env now s type request callback out
          args).effects = [Effect.PostResponseTask task] ∧
        task.listener = info.listener ∧
        task.details = FillDetailsObject env now [] (Arg.request request) args ∧
        task.response = { id := request.identifier, out := out }) ∧
      (∀ e ∈ (AtomNetworkDelegate.HandleResponseEvent env now s type request callback out
        args).effects, e.isRun = false) := by
  rw [HandleResponseEvent_of_match env now s type request callback out args info hinfo hmatch]
  refine ⟨rfl, ?_, ?_, ⟨_, rfl, rfl, rfl, rfl⟩, ?_⟩
  · simp
  · intro id hid
    simp [Function.update, hid]
  · intro e he
    simp only [List.mem_singleton] at he
    subst he
    rfl

/-- Claim C9 at a concrete input: the dispatch of `kOnBeforeRequest` for
request 7 on the delegate `listening`. -/
theorem HandleResponseEvent_parks_witness :
    (AtomNetworkDelegate.HandleResponseEvent exampleEnv 0 listening
        ResponseEvent.kOnBeforeRequest exampleRequest (Callback.bound 1) Out.new_url
        []).ret = net_ERR_IO_PENDING ∧
      (AtomNetworkDelegate.HandleResponseEvent exampleEnv 0 listening
        ResponseEvent.kOnBeforeRequest exampleRequest (Callback.bound 1) Out.new_url
        []).delegate.callbacks_ exampleRequest.identifier = some (Callback.bound 1) :=
  have h := HandleResponseEvent_parks exampleEnv 0 listening
    ResponseEvent.kOnBeforeRequest exampleRequest (Callback.bound 1) Out.new_url []
    { url_patterns := [], listener := Callback.bound 9 } (by rfl) (by rfl)
  ⟨h.1, h.2.1⟩

/-! ## Hooks without a listener (C7) -/

/-- Claim C7, as the claim states it, fails: on a delegate without any
listener whose emulation client id is `c1`, `OnBeforeStartTransaction` called
with an empty outgoing header set leaves the set holding the client-id
header. -/
theorem OnBeforeStartTransaction_stamps_without_listener :
    (emulating.response_listeners_ ResponseEvent.kOnBeforeSendHeaders).isSome = false ∧
      (AtomNetworkDelegate.OnBeforeStartTransaction exampleEnv 0 emulating exampleRequest
        (Callback.bound 1) []).out =
        [("X-DevTools-Emulate-Network-Conditions-Client-Id", "c1")] ∧
      (AtomNetworkDelegate.OnBeforeStartTransaction exampleEnv 0 emulating exampleRequest
        (Callback.bound 1) []).out ≠ [] := by
  decide

/-- Claim C7, amended: for every request, a lifecycle hook whose event kind
has no registered listener posts no task, runs no callback, leaves the
delegate (pending table included) as it is and leaves its outcome cells
(redirect URL, response header override) unmodified; the interceptable ones
return `net::OK`. For `OnBeforeStartTransaction` the outgoing request
headers are unmodified when the emulation client id is empty, and otherwise
they are the given headers with the client-id header set to that id. -/
theorem hooks_pass_through_without_listener (env : NetEnv) (now : Rat)
    (s : AtomNetworkDelegate) (request : URLRequest) (callback : CompletionCallback)
    (new_url new_location : GURL) (headers : HttpRequestHeaders)
    (original : HttpResponseHeaders) (override : Option HttpResponseHeaders)
    (net_error : Int) :
    (s.response_listeners_ ResponseEvent.kOnBeforeRequest = none →
        AtomNetworkDelegate.OnBeforeURLRequest env now s request callback new_url =
          { ret := net_OK, delegate := s, out := new_url, effects := [] }) ∧
      (s.response_listeners_ ResponseEvent.kOnBeforeSendHeaders = none →
        AtomNetworkDelegate.OnBeforeStartTransaction env now s request callback headers =
          { ret := net_OK
            delegate := s
            out :=
              if s.client_id_.isEmpty then headers
              else HttpRequestHeaders.SetHeader headers
                kDevToolsEmulateNetworkConditionsClientId s.client_id_
            effects := [] }) ∧
      (s.response_listeners_ ResponseEvent.kOnHeadersReceived = none →
        AtomNetworkDelegate.OnHeadersReceived env now s request callback original override
            new_url =
          { ret := net_OK, delegate := s, out := (override, new_url), effects := [] }) ∧
      (s.simple_listeners_ SimpleEvent.kOnSendHeaders = none →
        AtomNetworkDelegate.OnStartTransaction env now s request headers =
          { delegate := s, effects := [] }) ∧
      (s.simple_listeners_ SimpleEvent.kOnBeforeRedirect = none →
        AtomNetworkDelegate.OnBeforeRedirect env now s request new_location =
          { delegate := s, effects := [] }) ∧
      (s.simple_listeners_ SimpleEvent.kOnResponseStarted = none →
        AtomNetworkDelegate.OnResponseStarted env now s request net_error =
          { delegate := s, effects := [] }) := by
  refine ⟨?_, ?_, ?_, ?_, ?_, ?_⟩
  · intro h
    simp [AtomNetworkDelegate.OnBeforeURLRequest, h, brightray_NetworkDelegate_default]
  · intro h
    cases hc : s.client_id_.isEmpty <;>
      simp [AtomNetworkDelegate.OnBeforeStartTransaction, h, hc,
        brightray_NetworkDelegate_default]
  · intro h
    simp [AtomNetworkDelegate.OnHeadersReceived, h, brightray_NetworkDelegate_default]
  · intro h
    simp [AtomNetworkDelegate.OnStartTransaction, h]
  · intro h
    simp [AtomNetworkDelegate.OnBeforeRedirect, h]
  · intro h
    simp [AtomNetworkDelegate.OnResponseStarted, h]

/-- Claim C7, amended, at a concrete input: the hooks `OnBeforeURLRequest`
and `OnBeforeStartTransaction` on a fresh delegate, which has no listener and
an empty client id. -/
theorem hooks_pass_through_without_listener_witness :
    AtomNetworkDelegate.OnBeforeURLRequest exampleEnv 0 AtomNetworkDelegate.new exampleRequest
        (Callback.bound 1) (GURL.mk "") =
        { ret := net_OK, delegate := AtomNetworkDelegate.new, out := GURL.mk "",
          effects := [] } ∧
      (AtomNetworkDelegate.OnBeforeStartTransaction exampleEnv 0 AtomNetworkDelegate.new
        exampleRequest (Callback.bound 1) [("A", "1")]).out = [("A", "1")] :=
  have h := hooks_pass_through_without_listener exampleEnv 0 AtomNetworkDelegate.new
    exampleRequest (Callback.bound 1) (GURL.mk "") (GURL.mk "") [("A", "1")]
    { status_line := "HTTP/1.1 200 OK", response_code := 200, lines := [] } none 0
  ⟨h.1 rfl, congrArg HookResult.out (h.2.1 rfl)⟩

/-! ## Registrations whose patterns do not match (C8) -/

/-- A non-empty pattern set none of whose patterns matches the URL fails the
filter. -/
theorem MatchesFilterCondition_of_no_match (request : URLRequest) (patterns : URLPatterns)
    (hne : patterns ≠ [])
    (hnone : ∀ pattern ∈ patterns, pattern.MatchesURL request.url = false) :
    MatchesFilterCondition request patterns = false := by
  rw [MatchesFilterCondition_of_nonempty request patterns hne, ← Bool.not_eq_true,
    MatchesFilterCondition_loop_iff]
  rintro ⟨pattern, hmem, hp⟩
  rw [hnone pattern hmem] at hp
  exact Bool.false_ne_true hp

/-- Claim C8: for every event kind whose registration has a non-empty pattern
set and every request whose URL matches none of the patterns, the dispatch
does what happens for a kind without listener. The interceptable dispatch
`HandleResponseEvent` returns `net::OK`, posts no task, and leaves the
delegate, pending table included, as it is; the notify-only dispatch
`HandleSimpleEvent` posts no task and leaves the delegate as it is; and so
the hooks `OnBeforeURLRequest` and `OnHeadersReceived` return `net::OK` with
their outcome cells unchanged. -/
theorem dispatch_without_match_passes_through (env : NetEnv) (now : Rat)
    (s : AtomNetworkDelegate) (request : URLRequest) :
    (∀ (type : ResponseEvent) (info : ResponseListenerInfo) (callback : CompletionCallback)
        (out : Out) (args : List Arg),
        s.response_listeners_ type = some info →
        info.url_patterns ≠ [] →
        (∀ pattern ∈ info.url_patterns, pattern.MatchesURL request.url = false) →
        AtomNetworkDelegate.HandleResponseEvent env now s type request callback out args =
          { ret := net_OK, delegate := s, out := (), effects := [] }) ∧
      (∀ (type : SimpleEvent) (info : SimpleListenerInfo) (args : List Arg),
        s.simple_listeners_ type = some info →
        info.url_patterns ≠ [] →
        (∀ pattern ∈ info.url_patterns, pattern.MatchesURL request.url = false) →
        AtomNetworkDelegate.HandleSimpleEvent env now s type request args =
          { delegate := s, effects := [] }) ∧
      (∀ (info : ResponseListenerInfo) (callback : CompletionCallback) (new_url : GURL),
        s.response_listeners_ ResponseEvent.kOnBeforeRequest = some info →
        info.url_patterns ≠ [] →
        (∀ pattern ∈ info.url_patterns, pattern.MatchesURL request.url = false) →
        AtomNetworkDelegate.OnBeforeURLRequest env now s request callback new_url =
          { ret := net_OK, delegate := s, out := new_url, effects := [] }) ∧
      (∀ (info : ResponseListenerInfo) (callback : CompletionCallback)
        (original : HttpResponseHeaders) (override : Option HttpResponseHeaders)
        (new_url : GURL),
        s.response_listeners_ ResponseEvent.kOnHeadersReceived = some info →
        info.url_patterns ≠ [] →
        (∀ pattern ∈ info.url_patterns, pattern.MatchesURL request.url = false) →
        AtomNetworkDelegate.OnHeadersReceived env now s request callback original override
            new_url =
          { ret := net_OK, delegate := s, out := (override, new_url), effects := [] }) := by
  refine ⟨?_, ?_, ?_, ?_⟩
  · intro type info callback out args hinfo hne hnone
    exact HandleResponseEvent_of_no_match env now s type request callback out args info hinfo
      (MatchesFilterCondition_of_no_match request info.url_patterns hne hnone)
  · intro type info args hinfo hne hnone
    simp [AtomNetworkDelegate.HandleSimpleEvent, AtomNetworkDelegate.simple_listeners_at,
      hinfo, MatchesFilterCondition_of_no_match request info.url_patterns hne hnone]
  · intro info callback new_url hinfo hne hnone
    simp [AtomNetworkDelegate.OnBeforeURLRequest, hinfo,
      HandleResponseEvent_of_no_match env now s _ request callback _ _ info hinfo
        (MatchesFilterCondition_of_no_match request info.url_patterns hne hnone)]
  · intro info callback original override new_url hinfo hne hnone
    simp [AtomNetworkDelegate.OnHeadersReceived, hinfo,
      HandleResponseEvent_of_no_match env now s _ request callback _ _ info hinfo
        (MatchesFilterCondition_of_no_match request info.url_patterns hne hnone)]

/-- Claim C8 at a concrete input: on the delegate `filteredOut`, whose two
registrations have the one pattern that matches nothing, the dispatches for
the request 7 pass through. -/
theorem dispatch_without_match_passes_through_witness :
    AtomNetworkDelegate.HandleResponseEvent exampleEnv 0 filteredOut
        ResponseEvent.kOnBeforeRequest exampleRequest (Callback.bound 1) Out.new_url [] =
        { ret := net_OK, delegate := filteredOut, out := (), effects := [] } ∧
      AtomNetworkDelegate.HandleSimpleEvent exampleEnv 0 filteredOut
        SimpleEvent.kOnSendHeaders exampleRequest [Arg.request_headers []] =
        { delegate := filteredOut, effects := [] } :=
  have h := dispatch_without_match_passes_through exampleEnv 0 filteredOut exampleRequest
  ⟨h.1 ResponseEvent.kOnBeforeRequest
      { url_patterns := [matchNothing], listener := Callback.bound 9 } (Callback.bound 1)
      Out.new_url [] (by rfl) (by simp) (by simp [matchNothing]),
    h.2.1 SimpleEvent.kOnSendHeaders
      { url_patterns := [matchNothing], listener := Callback.bound 8 }
      [Arg.request_headers []] (by rfl) (by simp) (by simp [matchNothing])⟩

/-! ## The listener registry (C10) -/

/-- Claim C10: for every registry state, event kind `k`, pattern set `p` and
listener `l`, after `SetSimpleListenerInIO(k, p, l)`, and likewise after
`SetResponseListenerInIO(k, p, l)`, the registration for `k` is exactly
`(p, l)` when `l` is not null, whatever was registered before (so of two
calls for `k` the last one wins), and there is no registration for `k` when
`l` is null; in both cases the registrations of every other kind, of either
family, are unchanged. -/
theorem SetListener_registers (s : AtomNetworkDelegate) (patterns earlier : URLPatterns)
    (listener previous : Callback) :
    (∀ k : SimpleEvent,
        ( AtomNetworkDelegate.SetSimpleListenerInIO s k patterns listener).simple_listeners_ k =
          (if listener.is_null then none
            else some { url_patterns := patterns, listener := listener }) ∧
        ( AtomNetworkDelegate.SetSimpleListenerInIO
          ( AtomNetworkDelegate.SetSimpleListenerInIO s k earlier previous)
          k patterns listener).simple_listeners_ k =
          ( AtomNetworkDelegate.SetSimpleListenerInIO s k patterns listener).simple_listeners_ k ∧
        (∀ other : SimpleEvent, other ≠ k →
          ( AtomNetworkDelegate.SetSimpleListenerInIO s k patterns listener).simple_listeners_
            other = s.simple_listeners_ other) ∧
        ( AtomNetworkDelegate.SetSimpleListenerInIO s k patterns listener).response_listeners_ =
          s.response_listeners_) ∧
      (∀ k : ResponseEvent,
        ( AtomNetworkDelegate.SetResponseListenerInIO s k patterns listener).response_listeners_
          k =
          (if listener.is_null then none
            else some { url_patterns := patterns, listener := listener }) ∧
        ( AtomNetworkDelegate.SetResponseListenerInIO
          ( AtomNetworkDelegate.SetResponseListenerInIO s k earlier previous)
          k patterns listener).response_listeners_ k =
          ( AtomNetworkDelegate.SetResponseListenerInIO s k patterns
            listener).response_listeners_ k ∧
        (∀ other : ResponseEvent, other ≠ k →
          ( AtomNetworkDelegate.SetResponseListenerInIO s k patterns
            listener).response_listeners_ other = s.response_listeners_ other) ∧
        ( AtomNetworkDelegate.SetResponseListenerInIO s k patterns listener).simple_listeners_ =
          s.simple_listeners_) := by
  constructor
  · intro k
    cases hl : listener.is_null <;> cases hp : previous.is_null <;>
      simp [AtomNetworkDelegate.SetSimpleListenerInIO, hl, hp, Function.update]
    all_goals
      intro other hne
      simp [hne]
  · intro k
    cases hl : listener.is_null <;> cases hp : previous.is_null <;>
      simp [AtomNetworkDelegate.SetResponseListenerInIO, hl, hp, Function.update]
    all_goals
      intro other hne
      simp [hne]

/-! ## More lemmas on the library models -/

namespace DictionaryValue

/-- The path `redirectURL` has no dot: the lookup is a plain key lookup. -/
theorem Get_redirectURL (d : DictionaryValue) :
    Get d "redirectURL" = FindKey d "redirectURL" := by
  rfl

/-- The path `statusLine` has no dot: the lookup is a plain key lookup. -/
theorem Get_statusLine (d : DictionaryValue) :
    Get d "statusLine" = FindKey d "statusLine" := by
  rfl

/-- The path `responseHeaders` has no dot: the lookup is a plain key
lookup. -/
theorem Get_responseHeaders (d : DictionaryValue) :
    Get d "responseHeaders" = FindKey d "responseHeaders" := by
  rfl

/-- `GetString` at `redirectURL` when the key holds a string. -/
theorem GetString_redirectURL_of_string (d : DictionaryValue) (u : String)
    (h : FindKey d "redirectURL" = some (Value.string u)) :
    GetString d "redirectURL" = some u := by
  unfold GetString
  rw [Get_redirectURL, h]
  rfl

/-- `GetString` at `redirectURL` when the key holds no string. -/
theorem GetString_redirectURL_of_not_string (d : DictionaryValue)
    (h : ∀ u : String, FindKey d "redirectURL" ≠ some (Value.string u)) :
    GetString d "redirectURL" = none := by
  unfold GetString
  rw [Get_redirectURL]
  cases hv : FindKey d "redirectURL" with
  | none => rfl
  | some v =>
    cases v with
    | string u => exact absurd hv (h u)
    | _ => rfl

end DictionaryValue

/-- The comparison of header names is reflexive. -/
theorem EqualsCaseInsensitiveASCII_refl (a : String) :
    EqualsCaseInsensitiveASCII a a = true := by
  simp [EqualsCaseInsensitiveASCII]

namespace HttpRequestHeaders

/-- After `SetHeader` the header reads back with the value set. -/
theorem GetHeader_SetHeader_self (headers : HttpRequestHeaders) (key value : String) :
    GetHeader (SetHeader headers key value) key = some value := by
  induction headers with
  | nil => simp [SetHeader, GetHeader, EqualsCaseInsensitiveASCII_refl]
  | cons e rest ih =>
    obtain ⟨k, v⟩ := e
    cases h : EqualsCaseInsensitiveASCII key k <;> simp [SetHeader, GetHeader, h, ih]

end HttpRequestHeaders

/-- With an entry for `id`, the cells after a response are those that
`ReadFromResponseObject` leaves. -/
theorem OnListenerResult_targets_of_pending (env : NetEnv) (s : AtomNetworkDelegate)
    (id : Nat) (out : Out) (response : DictionaryValue) (targets : Targets)
    (callback : CompletionCallback) (hpending : s.callbacks_ id = some callback) :
    ( AtomNetworkDelegate.OnListenerResultInIO env s id out response targets).targets =
      ReadFromResponseObject env response out targets := by
  unfold AtomNetworkDelegate.OnListenerResultInIO
  rw [hpending]

/-- The outgoing headers that `OnBeforeStartTransaction` leaves, with or
without listener. -/
theorem OnBeforeStartTransaction_out (env : NetEnv) (now : Rat) (s : AtomNetworkDelegate)
    (request : URLRequest) (callback : CompletionCallback) (headers : HttpRequestHeaders) :
    (AtomNetworkDelegate.OnBeforeStartTransaction env now s request callback headers).out =
      if s.client_id_.isEmpty then headers
      else HttpRequestHeaders.SetHeader headers kDevToolsEmulateNetworkConditionsClientId
        s.client_id_ := by
  unfold AtomNetworkDelegate.OnBeforeStartTransaction
  cases hc : s.client_id_.isEmpty <;>
    cases hl : (s.response_listeners_ ResponseEvent.kOnBeforeSendHeaders).isSome <;>
    simp [hc, hl]

/-! ## The redirect target (C11) -/

/-- Claim C11: for every response whose `redirectURL` key holds a string `u`,
applying the response at the on-before-request checkpoint (`Out.new_url`) or
at the on-headers-received checkpoint (`Out.container`) sets the redirect
cell to the URL `u`, by `ReadFromResponseObject` and so by
`OnListenerResultInIO` for a pending identifier; when the key is absent the
redirect cell keeps its value. -/
theorem redirectURL_sets_redirect_target (env : NetEnv) (response : DictionaryValue)
    (targets : Targets) (status_line : String) :
    (∀ u : String, response.FindKey "redirectURL" = some (Value.string u) →
        (ReadFromResponseObject env response Out.new_url targets).new_url = GURL.mk u ∧
        (ReadFromResponseObject env response (Out.container status_line) targets).new_url =
          GURL.mk u ∧
        ∀ (s : AtomNetworkDelegate) (id : Nat) (callback : CompletionCallback),
          s.callbacks_ id = some callback →
          ( AtomNetworkDelegate.OnListenerResultInIO env s id Out.new_url response
            targets).targets.new_url = GURL.mk u ∧
          ( AtomNetworkDelegate.OnListenerResultInIO env s id (Out.container status_line)
            response targets).targets.new_url = GURL.mk u) ∧
      (response.FindKey "redirectURL" = none →
        (ReadFromResponseObject env response Out.new_url targets).new_url = targets.new_url ∧
        (ReadFromResponseObject env response (Out.container status_line) targets).new_url =
          targets.new_url) := by
  constructor
  · intro u hu
    have hg := DictionaryValue.GetString_redirectURL_of_string response u hu
    have h1 : (ReadFromResponseObject env response Out.new_url targets).new_url = GURL.mk u := by
      simp [ReadFromResponseObject, ReadFromResponseObject_new_location, hg]
    have h2 : (ReadFromResponseObject env response (Out.container status_line)
        targets).new_url = GURL.mk u := by
      simp only [ReadFromResponseObject, ReadFromResponseObject_container, hg]
      cases response.GetDictionary "responseHeaders" <;> rfl
    refine ⟨h1, h2, ?_⟩
    intro s id callback hpending
    rw [OnListenerResult_targets_of_pending env s id _ response targets callback hpending,
      OnListenerResult_targets_of_pending env s id _ response targets callback hpending]
    exact ⟨h1, h2⟩
  · intro hnone
    have hg : response.GetString "redirectURL" = none :=
      DictionaryValue.GetString_redirectURL_of_not_string response
        (fun u h => by rw [hnone] at h; exact Option.noConfusion h)
    constructor
    · simp [ReadFromResponseObject, ReadFromResponseObject_new_location, hg]
    · simp only [ReadFromResponseObject, ReadFromResponseObject_container, hg]
      cases response.GetDictionary "responseHeaders" <;> rfl

/-- Claim C11 at the input of the spec: the response `redirectURL:
"https://example.com/x"` sets the redirect cell to that URL at both
checkpoints. -/
theorem redirectURL_sets_redirect_target_witness :
    (ReadFromResponseObject exampleEnv
        [("redirectURL", Value.string "https://example.com/x")] Out.new_url
        exampleTargets).new_url = GURL.mk "https://example.com/x" ∧
      (ReadFromResponseObject exampleEnv
        [("redirectURL", Value.string "https://example.com/x")]
        (Out.container "HTTP/1.1 200 OK") exampleTargets).new_url =
        GURL.mk "https://example.com/x" :=
  have h := (redirectURL_sets_redirect_target exampleEnv
    [("redirectURL", Value.string "https://example.com/x")] exampleTargets
    "HTTP/1.1 200 OK").1 "https://example.com/x" (by rfl)
  ⟨h.1, h.2.1⟩

/-! ## The host/port contribution (C14) -/

/-- Claim C14 against the code: `ToDictionary(details, host_port)` tests
`host_port.host().empty()` without negation. With an empty host it does write
a key, `ip` with the empty string, into an empty record and over an address
already there; with a host that is not empty it writes nothing. -/
theorem ToDictionary_host_port_writes_ip_for_empty_host :
    ToDictionary_host_port [] { host := "", port := 0 } = [("ip", Value.string "")] ∧
      ToDictionary_host_port [("ip", Value.string "10.0.0.1")] { host := "", port := 80 } =
        [("ip", Value.string "")] ∧
      ToDictionary_host_port [] { host := "example.com", port := 80 } = [] := by
  refine ⟨?_, ?_, ?_⟩ <;> rfl

/-! ## The emulation client id (C15) -/

/-- Claim C15: after `SetDevToolsNetworkEmulationClientId(client_id)` the hook
`OnBeforeStartTransaction` leaves the outgoing headers as given when
`client_id` is empty, and otherwise as given but for the client-id header,
which is set to `client_id` and reads back so; an id set earlier plays no
part. -/
theorem client_id_is_stamped (env : NetEnv) (now : Rat) (s : AtomNetworkDelegate)
    (request : URLRequest) (callback : CompletionCallback) (headers : HttpRequestHeaders)
    (client_id earlier : String) :
    (client_id ≠ "" →
        (AtomNetworkDelegate.OnBeforeStartTransaction env now
          (AtomNetworkDelegate.SetDevToolsNetworkEmulationClientId s client_id)
          request callback headers).out =
          HttpRequestHeaders.SetHeader headers kDevToolsEmulateNetworkConditionsClientId
            client_id ∧
        HttpRequestHeaders.GetHeader
          (AtomNetworkDelegate.OnBeforeStartTransaction env now
            (AtomNetworkDelegate.SetDevToolsNetworkEmulationClientId s client_id)
            request callback headers).out
          kDevToolsEmulateNetworkConditionsClientId = some client_id) ∧
      (client_id = "" →
        (AtomNetworkDelegate.OnBeforeStartTransaction env now
          (AtomNetworkDelegate.SetDevToolsNetworkEmulationClientId s client_id)
          request callback headers).out = headers) ∧
      (AtomNetworkDelegate.OnBeforeStartTransaction env now
        (AtomNetworkDelegate.SetDevToolsNetworkEmulationClientId
          (AtomNetworkDelegate.SetDevToolsNetworkEmulationClientId s earlier) client_id)
        request callback headers).out =
        (AtomNetworkDelegate.OnBeforeStartTransaction env now
          (AtomNetworkDelegate.SetDevToolsNetworkEmulationClientId s client_id)
          request callback headers).out := by
  refine ⟨?_, ?_, ?_⟩
  · intro hne
    have hc : client_id.isEmpty = false := by
      rw [← Bool.not_eq_true, String.isEmpty_iff]
      exact hne
    have hout : (AtomNetworkDelegate.OnBeforeStartTransaction env now
        (AtomNetworkDelegate.SetDevToolsNetworkEmulationClientId s client_id)
        request callback headers).out =
        HttpRequestHeaders.SetHeader headers kDevToolsEmulateNetworkConditionsClientId
          client_id := by
      rw [OnBeforeStartTransaction_out]
      simp [AtomNetworkDelegate.SetDevToolsNetworkEmulationClientId, hc]
    refine ⟨hout, ?_⟩
    rw [hout]
    exact HttpRequestHeaders.GetHeader_SetHeader_self headers _ client_id
  · intro he
    subst he
    rw [OnBeforeStartTransaction_out]
    rfl
  · rw [OnBeforeStartTransaction_out, OnBeforeStartTransaction_out]
    rfl

/-- Claim C15 at a concrete input: with the client id `c1` the hook sets the
client-id header of the headers `A: 1` to `c1`. -/
theorem client_id_is_stamped_witness :
    HttpRequestHeaders.GetHeader
      (AtomNetworkDelegate.OnBeforeStartTransaction exampleEnv 0
        (AtomNetworkDelegate.SetDevToolsNetworkEmulationClientId AtomNetworkDelegate.new "c1")
        exampleRequest (Callback.bound 1) [("A", "1")]).out
      kDevToolsEmulateNetworkConditionsClientId = some "c1" :=
  ((client_id_is_stamped exampleEnv 0 AtomNetworkDelegate.new exampleRequest
    (Callback.bound 1) [("A", "1")] "c1" "c0").1 (by decide)).2

/-! ## Only the cells of the checkpoint change (C18) -/

/-- The request-header reader looks at the key `requestHeaders` only. -/
theorem ReadFromResponseObject_headers_congr (response other : DictionaryValue)
    (headers : HttpRequestHeaders)
    (h : response.FindKey "requestHeaders" = other.FindKey "requestHeaders") :
    ReadFromResponseObject_headers response headers =
      ReadFromResponseObject_headers other headers := by
  unfold ReadFromResponseObject_headers DictionaryValue.GetDictionary
  rw [DictionaryValue.Get_requestHeaders, DictionaryValue.Get_requestHeaders, h]

/-- The redirect reader looks at the key `redirectURL` only. -/
theorem ReadFromResponseObject_new_location_congr (response other : DictionaryValue)
    (new_location : GURL)
    (h : response.FindKey "redirectURL" = other.FindKey "redirectURL") :
    ReadFromResponseObject_new_location response new_location =
      ReadFromResponseObject_new_location other new_location := by
  unfold ReadFromResponseObject_new_location DictionaryValue.GetString
  rw [DictionaryValue.Get_redirectURL, DictionaryValue.Get_redirectURL, h]

/-- The response-header reader looks at the keys `statusLine`, `redirectURL`
and `responseHeaders` only. -/
theorem ReadFromResponseObject_container_congr (env : NetEnv)
    (response other : DictionaryValue) (status_line : String)
    (override : Option HttpResponseHeaders) (new_url : GURL)
    (h1 : response.FindKey "statusLine" = other.FindKey "statusLine")
    (h2 : response.FindKey "redirectURL" = other.FindKey "redirectURL")
    (h3 : response.FindKey "responseHeaders" = other.FindKey "responseHeaders") :
    ReadFromResponseObject_container env response status_line override new_url =
      ReadFromResponseObject_container env other status_line override new_url := by
  unfold ReadFromResponseObject_container DictionaryValue.GetString
    DictionaryValue.GetDictionary
  rw [DictionaryValue.Get_statusLine, DictionaryValue.Get_statusLine,
    DictionaryValue.Get_redirectURL, DictionaryValue.Get_redirectURL,
    DictionaryValue.Get_responseHeaders, DictionaryValue.Get_responseHeaders, h1, h2, h3]

/-- The cells after `OnListenerResultInIO` are the cells before, or what
`ReadFromResponseObject` makes of them. -/
theorem OnListenerResult_targets (env : NetEnv) (s : AtomNetworkDelegate) (id : Nat)
    (out : Out) (response : DictionaryValue) (targets : Targets) :
    ( AtomNetworkDelegate.OnListenerResultInIO env s id out response targets).targets =
        targets ∨
      ( AtomNetworkDelegate.OnListenerResultInIO env s id out response targets).targets =
        ReadFromResponseObject env response out targets := by
  unfold AtomNetworkDelegate.OnListenerResultInIO
  cases s.callbacks_ id with
  | none => exact Or.inl rfl
  | some callback => exact Or.inr rfl

/-- Claim C18: applying a listener response (`OnListenerResultInIO`, for any
delegate and identifier) changes only the cells of its checkpoint. At
on-before-request (`Out.new_url`) the request headers and the response header
override keep their values; at on-before-send-headers (`Out.headers`) the
redirect cell and the override keep theirs; at on-headers-received
(`Out.container`) the request headers keep theirs. And the keys of the other
checkpoints have no effect: what on-before-send-headers does depends on the
key `requestHeaders` alone (not on `redirectURL`, `responseHeaders` or
`statusLine`), what on-before-request does depends on `redirectURL` alone, and
what on-headers-received does depends on `statusLine`, `redirectURL` and
`responseHeaders` alone (not on `requestHeaders`). -/
theorem response_changes_only_its_targets (env : NetEnv) (s : AtomNetworkDelegate) (id : Nat)
    (response other : DictionaryValue) (targets : Targets) (status_line : String) :
    (( AtomNetworkDelegate.OnListenerResultInIO env s id Out.new_url response
          targets).targets.headers = targets.headers ∧
        ( AtomNetworkDelegate.OnListenerResultInIO env s id Out.new_url response
          targets).targets.override = targets.override) ∧
      (( AtomNetworkDelegate.OnListenerResultInIO env s id Out.headers response
          targets).targets.new_url = targets.new_url ∧
        ( AtomNetworkDelegate.OnListenerResultInIO env s id Out.headers response
          targets).targets.override = targets.override) ∧
      ( AtomNetworkDelegate.OnListenerResultInIO env s id (Out.container status_line) response
        targets).targets.headers = targets.headers ∧
      (response.FindKey "requestHeaders" = other.FindKey "requestHeaders" →
        ( AtomNetworkDelegate.OnListenerResultInIO env s id Out.headers response
          targets).targets =
          ( AtomNetworkDelegate.OnListenerResultInIO env s id Out.headers other
            targets).targets) ∧
      (response.FindKey "redirectURL" = other.FindKey "redirectURL" →
        ( AtomNetworkDelegate.OnListenerResultInIO env s id Out.new_url response
          targets).targets =
          ( AtomNetworkDelegate.OnListenerResultInIO env s id Out.new_url other
            targets).targets) ∧
      (response.FindKey "statusLine" = other.FindKey "statusLine" →
        response.FindKey "redirectURL" = other.FindKey "redirectURL" →
        response.FindKey "responseHeaders" = other.FindKey "responseHeaders" →
        ( AtomNetworkDelegate.OnListenerResultInIO env s id (Out.container status_line)
          response targets).targets =
          ( AtomNetworkDelegate.OnListenerResultInIO env s id (Out.container status_line)
            other targets).targets) := by
  refine ⟨⟨?_, ?_⟩, ⟨?_, ?_⟩, ?_, ?_, ?_, ?_⟩
  · rcases OnListenerResult_targets env s id Out.new_url response targets with h | h <;>
      (rw [h]; try rfl)
  · rcases OnListenerResult_targets env s id Out.new_url response targets with h | h <;>
      (rw [h]; try rfl)
  · rcases OnListenerResult_targets env s id Out.headers response targets with h | h <;>
      (rw [h]; try rfl)
  · rcases OnListenerResult_targets env s id Out.headers response targets with h | h <;>
      (rw [h]; try rfl)
  · rcases OnListenerResult_targets env s id (Out.container status_line) response targets
      with h | h <;> (rw [h]; try rfl)
  · intro h
    unfold AtomNetworkDelegate.OnListenerResultInIO
    cases s.callbacks_ id with
    | none => rfl
    | some callback =>
      simp only [ReadFromResponseObject,
        ReadFromResponseObject_headers_congr response other targets.headers h]
  · intro h
    unfold AtomNetworkDelegate.OnListenerResultInIO
    cases s.callbacks_ id with
    | none => rfl
    | some callback =>
      simp only [ReadFromResponseObject,
        ReadFromResponseObject_new_location_congr response other targets.new_url h]
  · intro h1 h2 h3
    unfold AtomNetworkDelegate.OnListenerResultInIO
    cases s.callbacks_ id with
    | none => rfl
    | some callback =>
      simp only [ReadFromResponseObject,
        ReadFromResponseObject_container_congr env response other status_line
          targets.override targets.new_url h1 h2 h3]

/-! ## The stamped client id and the listener's headers (C19) -/

namespace HttpRequestHeaders

/-- Every name in the set after `SetHeader` is the name set or was in the set
before. -/
theorem SetHeader_names (headers : HttpRequestHeaders) (key value : String) :
    ∀ e ∈ SetHeader headers key value, e.1 = key ∨ ∃ e0 ∈ headers, e0.1 = e.1 := by
  induction headers with
  | nil =>
    intro e he
    simp only [SetHeader, List.mem_singleton] at he
    exact Or.inl (by rw [he])
  | cons e0 rest ih =>
    obtain ⟨k, v⟩ := e0
    intro e he
    cases h : EqualsCaseInsensitiveASCII key k with
    | true =>
      simp only [SetHeader, h, if_true, List.mem_cons] at he
      rcases he with he | he
      · exact Or.inr ⟨(k, v), List.mem_cons_self _ _, by rw [he]⟩
      · exact Or.inr ⟨e, List.mem_cons_of_mem _ he, rfl⟩
    | false =>
      simp only [SetHeader, h, Bool.false_eq_true, if_false, List.mem_cons] at he
      rcases he with he | he
      · exact Or.inr ⟨(k, v), List.mem_cons_self _ _, by rw [he]⟩
      · rcases ih e he with h1 | ⟨e1, he1, h1⟩
        · exact Or.inl h1
        · exact Or.inr ⟨e1, List.mem_cons_of_mem _ he1, h1⟩

/-- A name that equals no name of the set, ignoring ASCII case, is not
found. -/
theorem GetHeader_eq_none (headers : HttpRequestHeaders) (key : String)
    (h : ∀ e ∈ headers, EqualsCaseInsensitiveASCII key e.1 = false) :
    GetHeader headers key = none := by
  induction headers with
  | nil => rfl
  | cons e0 rest ih =>
    obtain ⟨k, v⟩ := e0
    have hk : EqualsCaseInsensitiveASCII key k = false := h (k, v) (List.mem_cons_self _ _)
    simp only [GetHeader, hk, Bool.false_eq_true, if_false]
    exact ih (fun e he => h e (List.mem_cons_of_mem _ he))

end HttpRequestHeaders

/-- Every name in the set after the loop over a `requestHeaders` dictionary
was in the set before or is a key of the dictionary. -/
theorem ReadFromResponseObject_headers_loop_names (dict : DictionaryValue) :
    ∀ headers : HttpRequestHeaders,
      ∀ e ∈ ReadFromResponseObject_headers.loop dict headers,
        (∃ e0 ∈ headers, e0.1 = e.1) ∨ ∃ d ∈ dict, d.1 = e.1 := by
  induction dict with
  | nil =>
    intro headers e he
    exact Or.inl ⟨e, he, rfl⟩
  | cons d rest ih =>
    obtain ⟨key, value⟩ := d
    intro headers e he
    cases hv : value.GetAsString with
    | none =>
      simp only [ReadFromResponseObject_headers.loop, hv] at he
      rcases ih headers e he with h | ⟨d, hd, h⟩
      · exact Or.inl h
      · exact Or.inr ⟨d, List.mem_cons_of_mem _ hd, h⟩
    | some str =>
      simp only [ReadFromResponseObject_headers.loop, hv] at he
      rcases ih _ e he with ⟨e0, he0, h⟩ | ⟨d, hd, h⟩
      · rcases HttpRequestHeaders.SetHeader_names headers key str e0 he0 with h0 | ⟨e1, he1, h1⟩
        · exact Or.inr ⟨(key, value), List.mem_cons_self _ _, by rw [← h, h0]⟩
        · exact Or.inl ⟨e1, he1, by rw [h1, h]⟩
      · exact Or.inr ⟨d, List.mem_cons_of_mem _ hd, h⟩

/-- Every name in the set after reading a response with a `requestHeaders`
dictionary is a key of the dictionary. -/
theorem ReadFromResponseObject_headers_names (response dict : DictionaryValue)
    (headers : HttpRequestHeaders)
    (hdict : response.FindKey "requestHeaders" = some (Value.dictionary dict)) :
    ∀ e ∈ ReadFromResponseObject_headers response headers, ∃ d ∈ dict, d.1 = e.1 := by
  intro e he
  have hg : response.GetDictionary "requestHeaders" = some dict := by
    unfold DictionaryValue.GetDictionary
    rw [DictionaryValue.Get_requestHeaders, hdict]
    rfl
  simp only [ReadFromResponseObject_headers, hg, HttpRequestHeaders.Clear] at he
  rcases ReadFromResponseObject_headers_loop_names dict [] e he with ⟨e0, he0, _⟩ | h
  · exact absurd he0 (List.not_mem_nil _)
  · exact h

/-- Claim C19: let the emulation client id be non-empty and let the
on-before-send-headers dispatch reach a listener (a registration whose
patterns match). `OnBeforeStartTransaction` then returns
`net::ERR_IO_PENDING` with the client-id header stamped on the outgoing
headers. If the listener's response carries a `requestHeaders` mapping that
does not list that header, the outgoing headers after
`OnListenerResultInIO` do not contain it: no header of the final set has the
client-id name, be the names compared ignoring ASCII case (then the header
does not read back) or exactly. -/
theorem stamped_client_id_is_dropped (env : NetEnv) (now : Rat) (s : AtomNetworkDelegate)
    (request : URLRequest) (callback : CompletionCallback) (headers : HttpRequestHeaders)
    (info : ResponseListenerInfo) (response dict : DictionaryValue) (targets : Targets)
    (parked : HookResult HttpRequestHeaders) (final : HttpRequestHeaders)
    (hid : s.client_id_ ≠ "")
    (hinfo : s.response_listeners_ ResponseEvent.kOnBeforeSendHeaders = some info)
    (hmatch : MatchesFilterCondition request info.url_patterns = true)
    (hdict : response.FindKey "requestHeaders" = some (Value.dictionary dict))
    (hparked : parked =
      AtomNetworkDelegate.OnBeforeStartTransaction env now s request callback headers)
    (hfinal : final =
      ( AtomNetworkDelegate.OnListenerResultInIO env parked.delegate request.identifier
        Out.headers response { targets with headers := parked.out }).targets.headers) :
    parked.ret = net_ERR_IO_PENDING ∧
      HttpRequestHeaders.GetHeader parked.out kDevToolsEmulateNetworkConditionsClientId =
        some s.client_id_ ∧
      ((∀ d ∈ dict,
          EqualsCaseInsensitiveASCII kDevToolsEmulateNetworkConditionsClientId d.1 = false) →
        (∀ e ∈ final,
          EqualsCaseInsensitiveASCII kDevToolsEmulateNetworkConditionsClientId e.1 = false) ∧
        HttpRequestHeaders.GetHeader final kDevToolsEmulateNetworkConditionsClientId = none) ∧
      ((∀ d ∈ dict, d.1 ≠ kDevToolsEmulateNetworkConditionsClientId) →
        ∀ e ∈ final, e.1 ≠ kDevToolsEmulateNetworkConditionsClientId) := by
  have hc : s.client_id_.isEmpty = false := by
    rw [← Bool.not_eq_true, String.isEmpty_iff]
    exact hid
  have hout : parked.out =
      HttpRequestHeaders.SetHeader headers kDevToolsEmulateNetworkConditionsClientId
        s.client_id_ := by
    rw [hparked, OnBeforeStartTransaction_out]
    simp [hc]
  have hhandle := HandleResponseEvent_of_match env now s ResponseEvent.kOnBeforeSendHeaders
    request callback Out.headers
    [Arg.request_headers (HttpRequestHeaders.SetHeader headers
      kDevToolsEmulateNetworkConditionsClientId s.client_id_)] info hinfo hmatch
  have hret : parked.ret = net_ERR_IO_PENDING := by
    rw [hparked]
    simp [AtomNetworkDelegate.OnBeforeStartTransaction, hc, hinfo, hhandle]
  have hpending : parked.delegate.callbacks_ request.identifier = some callback := by
    rw [hparked]
    simp [AtomNetworkDelegate.OnBeforeStartTransaction, hc, hinfo, hhandle]
  have hread : final = ReadFromResponseObject_headers response parked.out := by
    rw [hfinal, OnListenerResult_targets_of_pending env parked.delegate request.identifier
      Out.headers response _ callback hpending]
    rfl
  have hnames := ReadFromResponseObject_headers_names response dict parked.out hdict
  refine ⟨hret, ?_, ?_, ?_⟩
  · rw [hout]
    exact HttpRequestHeaders.GetHeader_SetHeader_self headers _ _
  · intro hnot
    have hall : ∀ e ∈ final,
        EqualsCaseInsensitiveASCII kDevToolsEmulateNetworkConditionsClientId e.1 = false := by
      intro e he
      rw [hread] at he
      obtain ⟨d, hd, hde⟩ := hnames e he
      rw [← hde]
      exact hnot d hd
    exact ⟨hall, HttpRequestHeaders.GetHeader_eq_none final _ hall⟩
  · intro hnot e he
    rw [hread] at he
    obtain ⟨d, hd, hde⟩ := hnames e he
    rw [← hde]
    exact hnot d hd

/-- Claim C19 at a concrete input: with the client id `c1` and a listener for
`kOnBeforeSendHeaders`, the headers `A: 1` are stamped, and the response
`requestHeaders: {A: "3"}` leaves a header set from which the client-id
header does not read back. -/
theorem stamped_client_id_is_dropped_witness :
    HttpRequestHeaders.GetHeader
        (AtomNetworkDelegate.OnBeforeStartTransaction exampleEnv 0 emulatingListening
          exampleRequest (Callback.bound 1) [("A", "1")]).out
        kDevToolsEmulateNetworkConditionsClientId = some "c1" ∧
      HttpRequestHeaders.GetHeader
        ( AtomNetworkDelegate.OnListenerResultInIO exampleEnv
          (AtomNetworkDelegate.OnBeforeStartTransaction exampleEnv 0 emulatingListening
            exampleRequest (Callback.bound 1) [("A", "1")]).delegate
          exampleRequest.identifier Out.headers
          [("requestHeaders", Value.dictionary [("A", Value.string "3")])]
          { exampleTargets with
            headers := (AtomNetworkDelegate.OnBeforeStartTransaction exampleEnv 0
              emulatingListening exampleRequest (Callback.bound 1)
              [("A", "1")]).out }).targets.headers
        kDevToolsEmulateNetworkConditionsClientId = none :=
  have h := stamped_client_id_is_dropped exampleEnv 0 emulatingListening exampleRequest
    (Callback.bound 1) [("A", "1")] { url_patterns := [], listener := Callback.bound 9 }
    [("requestHeaders", Value.dictionary [("A", Value.string "3")])]
    [("A", Value.string "3")] exampleTargets _ _ (by decide) (by rfl) (by rfl) (by rfl)
    rfl rfl
  ⟨h.2.1, (h.2.2.1 (by decide)).2⟩

/-! ## Values of an unexpected type (C13) -/

namespace DictionaryValue

/-- `GetDictionary` fails when the key holds no dictionary; `path` is a path
without dot. -/
theorem GetDictionary_of_not_dictionary (d : DictionaryValue) (path : String)
    (hpath : Get d path = FindKey d path)
    (h : ∀ x : DictionaryValue, FindKey d path ≠ some (Value.dictionary x)) :
    GetDictionary d path = none := by
  unfold GetDictionary
  rw [hpath]
  cases hv : FindKey d path with
  | none => rfl
  | some v =>
    cases v with
    | dictionary x => exact absurd hv (h x)
    | _ => rfl

/-- `GetDictionary` gives the dictionary that the key holds; `path` is a path
without dot. -/
theorem GetDictionary_of_dictionary (d x : DictionaryValue) (path : String)
    (hpath : Get d path = FindKey d path)
    (h : FindKey d path = some (Value.dictionary x)) :
    GetDictionary d path = some x := by
  unfold GetDictionary
  rw [hpath, h]
  rfl

/-- `GetBoolean` at `cancel` fails when the key holds no boolean. -/
theorem GetBoolean_cancel_of_not_boolean (d : DictionaryValue)
    (h : ∀ b : Bool, FindKey d "cancel" ≠ some (Value.boolean b)) :
    GetBoolean d "cancel" = none := by
  unfold GetBoolean
  rw [Get_cancel]
  cases hv : FindKey d "cancel" with
  | none => rfl
  | some v =>
    cases v with
    | boolean b => exact absurd hv (h b)
    | _ => rfl

end DictionaryValue

/-- The loop over a `requestHeaders` dictionary passes over the entries whose
value is not a string. -/
theorem ReadFromResponseObject_headers_loop_filter (dict : DictionaryValue) :
    ∀ headers : HttpRequestHeaders,
      ReadFromResponseObject_headers.loop dict headers =
        ReadFromResponseObject_headers.loop
          (dict.filter (fun e => e.2.GetAsString.isSome)) headers := by
  induction dict with
  | nil => intro headers; rfl
  | cons d rest ih =>
    obtain ⟨key, value⟩ := d
    intro headers
    cases hv : value.GetAsString with
    | none => simp [ReadFromResponseObject_headers.loop, hv, ih headers]
    | some str =>
      simp only [ReadFromResponseObject_headers.loop, hv, List.filter_cons, Option.isSome_some,
        if_true]
      exact ih _

/-- The loop over a `responseHeaders` dictionary passes over the entries whose
value is not a list. -/
theorem ReadFromResponseObject_container_loop_filter (env : NetEnv) (dict : DictionaryValue) :
    ∀ headers : HttpResponseHeaders,
      ReadFromResponseObject_container.loop env dict headers =
        ReadFromResponseObject_container.loop env
          (dict.filter (fun e => e.2.GetAsList.isSome)) headers := by
  induction dict with
  | nil => intro headers; rfl
  | cons d rest ih =>
    obtain ⟨key, value⟩ := d
    intro headers
    cases hv : value.GetAsList with
    | none => simp [ReadFromResponseObject_container.loop, hv, ih headers]
    | some list =>
      simp only [ReadFromResponseObject_container.loop, hv, List.filter_cons,
        Option.isSome_some, if_true]
      exact ih _

/-- Claim C13, as the claim states it, fails: with the outgoing headers
`A: 1`, `B: 2`, the response whose `requestHeaders` mapping holds the integer
5 under `A` leaves the header set empty, not unmodified. -/
theorem requestHeaders_with_non_string_clears :
    ReadFromResponseObject exampleEnv
        [("requestHeaders", Value.dictionary [("A", Value.integer 5)])] Out.headers
        exampleTargets =
        { new_url := GURL.mk "", headers := [], override := none } ∧
      (ReadFromResponseObject exampleEnv
        [("requestHeaders", Value.dictionary [("A", Value.integer 5)])] Out.headers
        exampleTargets).headers ≠ exampleTargets.headers := by
  decide

/-- Claim C13, amended: for every response, applying it is a total function,
and a known key whose value has an unexpected type leaves its cell
unmodified: `redirectURL` not a string leaves the redirect cell, at both
checkpoints that read it; `requestHeaders` not a mapping leaves the outgoing
request headers; `responseHeaders` not a mapping leaves the response header
override; `cancel` not a boolean makes a pending continuation run with
`net::OK`. Inside a mapping an entry of an unexpected type is passed over
while the mapping is still applied: a `requestHeaders` mapping replaces the
header set by what its string-valued entries give, and a `responseHeaders`
mapping replaces the override by the block built from its list-valued
entries. -/
theorem unexpected_types_are_skipped (env : NetEnv) (response : DictionaryValue)
    (targets : Targets) (status_line : String) :
    ((∀ u : String, response.FindKey "redirectURL" ≠ some (Value.string u)) →
        (ReadFromResponseObject env response Out.new_url targets).new_url = targets.new_url ∧
        (ReadFromResponseObject env response (Out.container status_line) targets).new_url =
          targets.new_url) ∧
      ((∀ x : DictionaryValue,
          response.FindKey "requestHeaders" ≠ some (Value.dictionary x)) →
        (ReadFromResponseObject env response Out.headers targets).headers =
          targets.headers) ∧
      ((∀ x : DictionaryValue,
          response.FindKey "responseHeaders" ≠ some (Value.dictionary x)) →
        (ReadFromResponseObject env response (Out.container status_line) targets).override =
          targets.override) ∧
      ((∀ b : Bool, response.FindKey "cancel" ≠ some (Value.boolean b)) →
        ∀ (s : AtomNetworkDelegate) (id : Nat) (out : Out) (callback : CompletionCallback),
          s.callbacks_ id = some callback →
          ( AtomNetworkDelegate.OnListenerResultInIO env s id out response targets).effects =
            [Effect.Run callback net_OK]) ∧
      (∀ dict : DictionaryValue,
        response.FindKey "requestHeaders" = some (Value.dictionary dict) →
        (ReadFromResponseObject env response Out.headers targets).headers =
          ReadFromResponseObject_headers.loop
            (dict.filter (fun e => e.2.GetAsString.isSome)) []) ∧
      (∀ dict : DictionaryValue,
        response.FindKey "responseHeaders" = some (Value.dictionary dict) →
        (ReadFromResponseObject env response (Out.container status_line) targets).override =
          some (ReadFromResponseObject_container.loop env
            (dict.filter (fun e => e.2.GetAsList.isSome))
            (HttpResponseHeaders.ReplaceStatusLine env (HttpResponseHeaders.ofEmpty env)
              ((response.GetString "statusLine").getD status_line)))) := by
  refine ⟨?_, ?_, ?_, ?_, ?_, ?_⟩
  · intro h
    have hg := DictionaryValue.GetString_redirectURL_of_not_string response h
    constructor
    · simp [ReadFromResponseObject, ReadFromResponseObject_new_location, hg]
    · simp only [ReadFromResponseObject, ReadFromResponseObject_container, hg]
      cases response.GetDictionary "responseHeaders" <;> rfl
  · intro h
    have hg := DictionaryValue.GetDictionary_of_not_dictionary response "requestHeaders"
      (DictionaryValue.Get_requestHeaders response) h
    simp [ReadFromResponseObject, ReadFromResponseObject_headers, hg]
  · intro h
    have hg := DictionaryValue.GetDictionary_of_not_dictionary response "responseHeaders"
      (DictionaryValue.Get_responseHeaders response) h
    simp [ReadFromResponseObject, ReadFromResponseObject_container, hg]
  · intro h s id out callback hpending
    have hg := DictionaryValue.GetBoolean_cancel_of_not_boolean response h
    unfold AtomNetworkDelegate.OnListenerResultInIO
    rw [hpending]
    simp [hg]
  · intro dict h
    have hg := DictionaryValue.GetDictionary_of_dictionary response dict "requestHeaders"
      (DictionaryValue.Get_requestHeaders response) h
    simp only [ReadFromResponseObject, ReadFromResponseObject_headers, hg,
      HttpRequestHeaders.Clear]
    exact ReadFromResponseObject_headers_loop_filter dict []
  · intro dict h
    have hg := DictionaryValue.GetDictionary_of_dictionary response dict "responseHeaders"
      (DictionaryValue.Get_responseHeaders response) h
    simp only [ReadFromResponseObject, ReadFromResponseObject_container, hg]
    rw [ReadFromResponseObject_container_loop_filter]
    cases response.GetString "statusLine" <;> rfl

/-- Claim C13, amended, at a concrete input: the response `redirectURL: 5`,
`requestHeaders: "x"` leaves the redirect cell and the request headers of the
examples as they are. -/
theorem unexpected_types_are_skipped_witness :
    (ReadFromResponseObject exampleEnv
        [("redirectURL", Value.integer 5), ("requestHeaders", Value.string "x")] Out.new_url
        exampleTargets).new_url = exampleTargets.new_url ∧
      (ReadFromResponseObject exampleEnv
        [("redirectURL", Value.integer 5), ("requestHeaders", Value.string "x")] Out.headers
        exampleTargets).headers = exampleTargets.headers :=
  have h := unexpected_types_are_skipped exampleEnv
    [("redirectURL", Value.integer 5), ("requestHeaders", Value.string "x")] exampleTargets
    "HTTP/1.1 200 OK"
  ⟨(h.1 (by intro u hu; injection hu with hu; injection hu)).1,
    h.2.1 (by intro x hx; injection hx with hx; injection hx)⟩

/-! ## The response header block is rebuilt (C12) -/

namespace HttpResponseHeaders

/-- Removing a header whose name no line carries changes nothing. -/
theorem RemoveHeader_of_fresh (h : HttpResponseHeaders) (name : String)
    (hfresh : ∀ l ∈ h.lines, EqualsCaseInsensitiveASCII l.1 name = false) :
    RemoveHeader h name = h := by
  unfold RemoveHeader
  have hfilter : h.lines.filter (fun l => !EqualsCaseInsensitiveASCII l.1 name) = h.lines := by
    rw [List.filter_eq_self]
    intro l hl
    simp [hfresh l hl]
  rw [hfilter]

end HttpResponseHeaders

/-- The inner loop over a list of strings whose lines the parser reads back
as written appends one line per string. -/
theorem ReadFromResponseObject_container_addValues_strings (env : NetEnv) (key : String)
    (values : List String) :
    ∀ headers : HttpResponseHeaders,
      (∀ value ∈ values, env.ParseHeaderLine (key ++ " : " ++ value) = some (key, value)) →
      ReadFromResponseObject_container.addValues env key (values.map Value.string) headers =
        { headers with lines := headers.lines ++ values.map (fun value => (key, value)) } := by
  induction values with
  | nil => intro headers _; simp [ReadFromResponseObject_container.addValues]
  | cons value rest ih =>
    intro headers hparse
    have hv := hparse value (List.mem_cons_self _ _)
    simp only [List.map_cons, ReadFromResponseObject_container.addValues, Value.GetAsString,
      HttpResponseHeaders.AddHeader, hv]
    rw [ih _ (fun v hmem => hparse v (List.mem_cons_of_mem _ hmem))]
    simp

/-- The outer loop over a mapping from names to lists of strings, whose names
differ pairwise (ignoring ASCII case) from one another and from the names in
the block, and whose lines the parser reads back as written, appends the
pairs of the mapping in order. -/
theorem ReadFromResponseObject_container_loop_append (env : NetEnv)
    (D : List (String × List String)) :
    ∀ headers : HttpResponseHeaders,
      D.Pairwise (fun a b => EqualsCaseInsensitiveASCII a.1 b.1 = false) →
      (∀ l ∈ headers.lines, ∀ e ∈ D, EqualsCaseInsensitiveASCII l.1 e.1 = false) →
      (∀ e ∈ D, ∀ value ∈ e.2,
        env.ParseHeaderLine (e.1 ++ " : " ++ value) = some (e.1, value)) →
      ReadFromResponseObject_container.loop env
          (D.map fun e => (e.1, Value.list (e.2.map Value.string))) headers =
        { headers with lines := headers.lines ++ headerPairs D } := by
  induction D with
  | nil => intro headers _ _ _; simp [ReadFromResponseObject_container.loop, headerPairs]
  | cons e rest ih =>
    obtain ⟨name, values⟩ := e
    intro headers hpair hfresh hparse
    rw [List.pairwise_cons] at hpair
    have hremove : HttpResponseHeaders.RemoveHeader headers name = headers :=
      HttpResponseHeaders.RemoveHeader_of_fresh headers name
        (fun l hl => hfresh l hl (name, values) (List.mem_cons_self _ _))
    have hadd := ReadFromResponseObject_container_addValues_strings env name values headers
      (hparse (name, values) (List.mem_cons_self _ _))
    simp only [List.map_cons, ReadFromResponseObject_container.loop, Value.GetAsList, hremove,
      hadd]
    rw [ih _ hpair.2 ?_ (fun e he => hparse e (List.mem_cons_of_mem _ he))]
    · simp [headerPairs]
    · intro l hl e he
      simp only [List.mem_append, List.mem_map] at hl
      rcases hl with hl | ⟨value, _, hvalue⟩
      · exact hfresh l hl e (List.mem_cons_of_mem _ he)
      · rw [← hvalue]
        exact hpair.1 e he

/-- Claim C12, as the claim states it, fails: for the `responseHeaders`
mapping `A: ["1"]`, `a: ["2"]` (two different dictionary keys) the rebuilt
block has the single header line `a: 2`; the pair `A`, `1` that the mapping
lists is not among its lines. -/
theorem responseHeaders_case_collision :
    (ReadFromResponseObject parsingEnv
        [("responseHeaders",
          Value.dictionary
            [("A", Value.list [Value.string "1"]), ("a", Value.list [Value.string "2"])])]
        (Out.container "HTTP/1.1 200 OK") exampleTargets).override =
        some { status_line := "HTTP/1.1 200 OK", response_code := 200, lines := [("a", "2")] } ∧
      headerPairs [("A", ["1"]), ("a", ["2"])] = [("A", "1"), ("a", "2")] := by
  decide

/-- Claim C12, amended: let the `responseHeaders` value of the response be a
mapping `D` from header name to list of strings whose names differ pairwise
ignoring ASCII case, and let the header parser read each line
`name : value` built from `D` back as that name and value. Applying the
response at on-headers-received then replaces the override by a freshly built
block whose status line is what the parser makes of the `statusLine` string
of the response if there is one and of the original status line otherwise
(that line itself when the parser leaves it as it is), and whose header lines
are exactly the pairs listed in `D`, each list in order; nothing of the
original block or of the earlier override is carried over. -/
theorem responseHeaders_rebuild_override (env : NetEnv) (response : DictionaryValue)
    (targets : Targets) (original : HttpResponseHeaders) (D : List (String × List String))
    (hD : response.FindKey "responseHeaders" =
      some (Value.dictionary (D.map fun e => (e.1, Value.list (e.2.map Value.string)))))
    (hnames : D.Pairwise (fun a b => EqualsCaseInsensitiveASCII a.1 b.1 = false))
    (hparse : ∀ e ∈ D, ∀ value ∈ e.2,
      env.ParseHeaderLine (e.1 ++ " : " ++ value) = some (e.1, value)) :
    ∃ block : HttpResponseHeaders,
      (ReadFromResponseObject env response (Out.container original.GetStatusLine)
        targets).override = some block ∧
      block.status_line =
        (env.ParseStatusLine
          ((response.GetString "statusLine").getD original.GetStatusLine)).1 ∧
      ((env.ParseStatusLine
          ((response.GetString "statusLine").getD original.GetStatusLine)).1 =
          (response.GetString "statusLine").getD original.GetStatusLine →
        block.status_line = (response.GetString "statusLine").getD original.GetStatusLine) ∧
      block.lines = headerPairs D := by
  have hg := DictionaryValue.GetDictionary_of_dictionary response _ "responseHeaders"
    (DictionaryValue.Get_responseHeaders response) hD
  have hloop := ReadFromResponseObject_container_loop_append env D
    (HttpResponseHeaders.ReplaceStatusLine env (HttpResponseHeaders.ofEmpty env)
      ((response.GetString "statusLine").getD original.GetStatusLine))
    hnames (by intro l hl; exact absurd hl (List.not_mem_nil _)) hparse
  have hline : (match response.GetString "statusLine" with
      | some status_line => status_line
      | none => original.GetStatusLine) =
      (response.GetString "statusLine").getD original.GetStatusLine := by
    cases response.GetString "statusLine" <;> rfl
  refine ⟨{ status_line := (env.ParseStatusLine
        ((response.GetString "statusLine").getD original.GetStatusLine)).1
            response_code := (env.ParseStatusLine
        ((response.GetString "statusLine").getD original.GetStatusLine)).2
            lines := headerPairs D }, ?_, rfl, fun h => h, rfl⟩
  simp only [ReadFromResponseObject, ReadFromResponseObject_container, hg, hline, hloop]
  simp [HttpResponseHeaders.ReplaceStatusLine, HttpResponseHeaders.ofEmpty]

/-- Claim C12, amended, at a concrete input: the response with the status
line `HTTP/1.1 404 Not Found` and the headers `Set-Cookie: a=1`,
`Set-Cookie: b=2`, `X-Test: v` replaces an override that is not there by the
block of exactly these lines. -/
theorem responseHeaders_rebuild_override_witness :
    ∃ block : HttpResponseHeaders,
      (ReadFromResponseObject parsingEnv
        [("responseHeaders",
          Value.dictionary
            [("Set-Cookie", Value.list [Value.string "a=1", Value.string "b=2"]),
              ("X-Test", Value.list [Value.string "v"])]),
          ("statusLine", Value.string "HTTP/1.1 404 Not Found")]
        (Out.container "HTTP/1.1 200 OK") exampleTargets).override = some block ∧
      block.status_line = "HTTP/1.1 404 Not Found" ∧
      block.lines = [("Set-Cookie", "a=1"), ("Set-Cookie", "b=2"), ("X-Test", "v")] :=
  have h := responseHeaders_rebuild_override parsingEnv
    [("responseHeaders",
      Value.dictionary
        [("Set-Cookie", Value.list [Value.string "a=1", Value.string "b=2"]),
          ("X-Test", Value.list [Value.string "v"])]),
      ("statusLine", Value.string "HTTP/1.1 404 Not Found")]
    exampleTargets
    { status_line := "HTTP/1.1 200 OK", response_code := 200, lines := [("Server", "x")] }
    [("Set-Cookie", ["a=1", "b=2"]), ("X-Test", ["v"])] (by rfl) (by decide) (by decide)
  h.elim fun block hb => ⟨block, hb.1, hb.2.1, hb.2.2.2⟩

/-! ## The clock in the details object (C16) -/

/-- A record agrees with itself outside `timestamp`. -/
theorem SameOutsideTimestamp_refl (d : DictionaryValue) : SameOutsideTimestamp d d := by
  unfold SameOutsideTimestamp
  induction d with
  | nil => exact List.Forall₂.nil
  | cons e rest ih => exact List.Forall₂.cons ⟨rfl, fun _ => rfl⟩ ih

/-- Storing under the same key in two records that agree outside `timestamp`
keeps them agreeing, when the values stored are equal or the key is
`timestamp`. -/
theorem SameOutsideTimestamp_SetKey (d1 d2 : DictionaryValue) (key : String) (v1 v2 : Value)
    (hsame : SameOutsideTimestamp d1 d2) (hv : key ≠ "timestamp" → v1 = v2) :
    SameOutsideTimestamp (DictionaryValue.SetKey d1 key v1)
      (DictionaryValue.SetKey d2 key v2) := by
  unfold SameOutsideTimestamp at hsame ⊢
  induction hsame with
  | nil => exact List.Forall₂.cons ⟨rfl, hv⟩ List.Forall₂.nil
  | @cons a b l1 l2 hab hrest ih =>
    obtain ⟨k1, w1⟩ := a
    obtain ⟨k2, w2⟩ := b
    obtain ⟨hk, hw⟩ := hab
    simp only at hk hw
    subst hk
    by_cases heq : k1 = key
    · simp only [DictionaryValue.SetKey, heq, if_true]
      exact List.Forall₂.cons ⟨rfl, hv⟩ hrest
    · by_cases hless : DictionaryValue.keyLess key k1 = true
      · simp only [DictionaryValue.SetKey, heq, if_false, hless, if_true]
        exact List.Forall₂.cons ⟨rfl, hv⟩ (List.Forall₂.cons ⟨rfl, hw⟩ hrest)
      · simp only [DictionaryValue.SetKey, heq, if_false, hless]
        exact List.Forall₂.cons ⟨rfl, hw⟩ ih

/-- Records that agree outside `timestamp` hold the same value under every
other key. -/
theorem SameOutsideTimestamp_FindKey (d1 d2 : DictionaryValue) (key : String)
    (hsame : SameOutsideTimestamp d1 d2) (hkey : key ≠ "timestamp") :
    DictionaryValue.FindKey d1 key = DictionaryValue.FindKey d2 key := by
  unfold SameOutsideTimestamp at hsame
  induction hsame with
  | nil => rfl
  | @cons a b l1 l2 hab hrest ih =>
    obtain ⟨k1, w1⟩ := a
    obtain ⟨k2, w2⟩ := b
    obtain ⟨hk, hw⟩ := hab
    simp only at hk hw
    subst hk
    by_cases heq : k1 = key
    · have hne : k1 ≠ "timestamp" := by rw [heq]; exact hkey
      simp [DictionaryValue.FindKey, heq, hw hne]
    · simp [DictionaryValue.FindKey, heq, ih]

/-- Records that agree outside `timestamp` list the same keys in the same
order. -/
theorem SameOutsideTimestamp_keys (d1 d2 : DictionaryValue)
    (hsame : SameOutsideTimestamp d1 d2) :
    d1.map Prod.fst = d2.map Prod.fst := by
  unfold SameOutsideTimestamp at hsame
  induction hsame with
  | nil => rfl
  | @cons a b l1 l2 hab hrest ih => simp [hab.1, ih]

/-- One contribution to the details object, made at two clock readings to
records that agree outside `timestamp`, leaves them agreeing. -/
theorem SameOutsideTimestamp_ToDictionary (env : NetEnv) (now later : Rat)
    (d1 d2 : DictionaryValue) (arg : Arg) (hsame : SameOutsideTimestamp d1 d2) :
    SameOutsideTimestamp (ToDictionary env now d1 arg) (ToDictionary env later d2 arg) := by
  cases arg with
  | request request =>
    have h1 := SameOutsideTimestamp_SetKey d1 d2 "method" (Value.string request.method)
      (Value.string request.method) hsame (fun _ => rfl)
    have h2 := SameOutsideTimestamp_SetKey _ _ "url" (Value.string request.url.spec)
      (Value.string request.url.spec) h1 (fun _ => rfl)
    have h3 := SameOutsideTimestamp_SetKey _ _ "id" (Value.integer (toInt32 request.identifier))
      (Value.integer (toInt32 request.identifier)) h2 (fun _ => rfl)
    have h4 := SameOutsideTimestamp_SetKey _ _ "timestamp" (Value.double (now * 1000))
      (Value.double (later * 1000)) h3 (fun h => absurd rfl h)
    have h5 := SameOutsideTimestamp_SetKey _ _ "firstPartyUrl"
      (Value.string request.site_for_cookies.spec)
      (Value.string request.site_for_cookies.spec) h4 (fun _ => rfl)
    have h6 := SameOutsideTimestamp_SetKey _ _ "resourceType"
      (Value.string (match request.resource_request_info with
        | some info => ResourceTypeToString info.resource_type
        | none => "other"))
      (Value.string (match request.resource_request_info with
        | some info => ResourceTypeToString info.resource_type
        | none => "other")) h5 (fun _ => rfl)
    cases hr : request.remote_endpoint with
    | none =>
      simp only [ToDictionary, ToDictionary_request, hr]
      exact h6
    | some endpoint =>
      obtain ⟨ip, port⟩ := endpoint
      have h7 := SameOutsideTimestamp_SetKey _ _ "ip" (Value.string ip) (Value.string ip) h6
        (fun _ => rfl)
      have h8 := SameOutsideTimestamp_SetKey _ _ "port" (Value.integer port)
        (Value.integer port) h7 (fun _ => rfl)
      simp only [ToDictionary, ToDictionary_request, hr]
      exact h8
  | request_headers headers =>
    exact SameOutsideTimestamp_SetKey d1 d2 "requestHeaders" _ _ hsame (fun _ => rfl)
  | response_headers headers =>
    cases headers with
    | none => exact hsame
    | some headers =>
      have h1 := SameOutsideTimestamp_SetKey d1 d2 "responseHeaders"
        (Value.dictionary
          (ToDictionary_response_headers.loop headers.EnumerateHeaderLines []))
        (Value.dictionary
          (ToDictionary_response_headers.loop headers.EnumerateHeaderLines []))
        hsame (fun _ => rfl)
      have h2 := SameOutsideTimestamp_SetKey _ _ "statusLine"
        (Value.string headers.GetStatusLine) (Value.string headers.GetStatusLine) h1
        (fun _ => rfl)
      exact SameOutsideTimestamp_SetKey _ _ "statusCode" (Value.integer headers.response_code)
        (Value.integer headers.response_code) h2 (fun _ => rfl)
  | location location =>
    exact SameOutsideTimestamp_SetKey d1 d2 "redirectURL" _ _ hsame (fun _ => rfl)
  | host_port host_port =>
    cases hh : host_port.host.isEmpty with
    | true =>
      simp only [ToDictionary, ToDictionary_host_port, hh, if_true]
      exact SameOutsideTimestamp_SetKey d1 d2 "ip" _ _ hsame (fun _ => rfl)
    | false =>
      simp only [ToDictionary, ToDictionary_host_port, hh]
      exact hsame
  | from_cache from_cache =>
    exact SameOutsideTimestamp_SetKey d1 d2 "fromCache" _ _ hsame (fun _ => rfl)
  | status error =>
    exact SameOutsideTimestamp_SetKey d1 d2 "error" _ _ hsame (fun _ => rfl)

/-- The whole build, made at two clock readings from records that agree
outside `timestamp`, gives records that agree outside `timestamp`. -/
theorem SameOutsideTimestamp_FillDetailsObject (env : NetEnv) (now later : Rat)
    (args : List Arg) :
    ∀ (d1 d2 : DictionaryValue) (arg : Arg), SameOutsideTimestamp d1 d2 →
      SameOutsideTimestamp (FillDetailsObject env now d1 arg args)
        (FillDetailsObject env later d2 arg args) := by
  induction args with
  | nil =>
    intro d1 d2 arg hsame
    exact SameOutsideTimestamp_ToDictionary env now later d1 d2 arg hsame
  | cons next rest ih =>
    intro d1 d2 arg hsame
    exact ih _ _ next (SameOutsideTimestamp_ToDictionary env now later d1 d2 arg hsame)

/-- Claim C16, as the claim states it, fails: two builds of the details
object from the same request and the same (no) extra facts, made at the clock
readings 0 and 1, give different records. -/
theorem builds_at_different_times_differ :
    FillDetailsObject exampleEnv 0 [] (Arg.request exampleRequest) [] ≠
      FillDetailsObject exampleEnv 1 [] (Arg.request exampleRequest) [] := by
  intro h
  have h0 : DictionaryValue.FindKey
      (FillDetailsObject exampleEnv 0 [] (Arg.request exampleRequest) []) "timestamp" =
      some (Value.double (0 * 1000)) := rfl
  have h1 : DictionaryValue.FindKey
      (FillDetailsObject exampleEnv 1 [] (Arg.request exampleRequest) []) "timestamp" =
      some (Value.double (1 * 1000)) := rfl
  rw [h, h1] at h0
  injection h0 with h0
  injection h0 with h0
  norm_num at h0

/-- Claim C16, amended: a build of the details object is a function of the
request, the extra facts and the reading of the clock during the build. Two
builds from the same record, request and facts at the same clock reading give
equal records; two builds at different clock readings give records that list
the same keys in the same order and hold the same value under every key other
than `timestamp`. -/
theorem FillDetailsObject_clock_only_in_timestamp (env : NetEnv) (now later : Rat)
    (details : DictionaryValue) (arg : Arg) (args : List Arg) :
    (now = later →
        FillDetailsObject env now details arg args =
          FillDetailsObject env later details arg args) ∧
      SameOutsideTimestamp (FillDetailsObject env now details arg args)
        (FillDetailsObject env later details arg args) ∧
      (FillDetailsObject env now details arg args).map Prod.fst =
        (FillDetailsObject env later details arg args).map Prod.fst ∧
      ∀ key : String, key ≠ "timestamp" →
        DictionaryValue.FindKey (FillDetailsObject env now details arg args) key =
          DictionaryValue.FindKey (FillDetailsObject env later details arg args) key := by
  have hsame := SameOutsideTimestamp_FillDetailsObject env now later args details details arg
    (SameOutsideTimestamp_refl details)
  refine ⟨?_, hsame, SameOutsideTimestamp_keys _ _ hsame, ?_⟩
  · intro h
    rw [h]
  · intro key hkey
    exact SameOutsideTimestamp_FindKey _ _ key hsame hkey

/-- Claim C16, amended, at a concrete input: the builds for the request of the
examples at the clock readings 0 and 1 hold the same `url`. -/
theorem FillDetailsObject_clock_only_in_timestamp_witness :
    DictionaryValue.FindKey
        (FillDetailsObject exampleEnv 0 [] (Arg.request exampleRequest) []) "url" =
      DictionaryValue.FindKey
        (FillDetailsObject exampleEnv 1 [] (Arg.request exampleRequest) []) "url" :=
  (FillDetailsObject_clock_only_in_timestamp exampleEnv 0 1 [] (Arg.request exampleRequest)
    []).2.2.2 "url" (by decide)

/-! ## The response-headers contribution (C17) -/

namespace DictionaryValue

/-- A string without dot is a path of one component, itself. -/
theorem splitPathChars_of_no_dot (cs : List Char) (h : '.' ∉ cs) :
    splitPathChars cs = [String.mk cs] := by
  induction cs with
  | nil => rfl
  | cons c rest ih =>
    have hc : c ≠ '.' := fun hc => h (by rw [hc]; exact List.mem_cons_self _ _)
    have hrest : '.' ∉ rest := fun hmem => h (List.mem_cons_of_mem _ hmem)
    simp [splitPathChars, ih hrest, hc]

/-- `Set` at a path without dot is `SetKey`. -/
theorem Set_of_no_dot (d : DictionaryValue) (key : String) (v : Value)
    (h : '.' ∉ key.data) : Set d key v = SetKey d key v := by
  unfold Set splitPath
  rw [splitPathChars_of_no_dot key.data h]
  rfl

/-- `Get` at a path without dot is `FindKey`. -/
theorem Get_of_no_dot (d : DictionaryValue) (key : String) (h : '.' ∉ key.data) :
    Get d key = FindKey d key := by
  unfold Get splitPath
  rw [splitPathChars_of_no_dot key.data h]
  rfl

/-- What a key holds after `SetKey`. -/
theorem FindKey_SetKey (d : DictionaryValue) (key name : String) (v : Value) :
    FindKey (SetKey d key v) name = if key = name then some v else FindKey d name := by
  induction d with
  | nil => simp [SetKey, FindKey]
  | cons e rest ih =>
    obtain ⟨k, w⟩ := e
    by_cases hk : k = key
    · subst hk
      by_cases hn : k = name <;> simp [SetKey, FindKey, hn]
    · by_cases hless : keyLess key k = true
      · simp only [SetKey, hk, if_false, hless, if_true, FindKey]
      · simp only [SetKey, hk, if_false, hless, FindKey, ih]
        by_cases hkn : k = name
        · have hne : key ≠ name := fun h => hk (hkn.trans h.symm)
          simp [hkn, hne]
        · simp [hkn]

end DictionaryValue

/-- The loop of the response-headers contribution over header lines whose
names have no dot: what a name holds afterwards, given what it held before.
A list grows by the values of the lines with that name, in order; a name not
held before holds the list of those values when there is such a line. -/
theorem ToDictionary_response_headers_loop_FindKey (name : String)
    (lines : List (String × String)) :
    ∀ dict : DictionaryValue,
      (∀ l ∈ lines, '.' ∉ l.1.data) →
      DictionaryValue.FindKey (ToDictionary_response_headers.loop lines dict) name =
        match DictionaryValue.FindKey dict name with
        | some (Value.list held) =>
          some (Value.list (held ++ (valuesOf name lines).map Value.string))
        | some other => some other
        | none =>
          if valuesOf name lines = [] then none
          else some (Value.list ((valuesOf name lines).map Value.string)) := by
  induction lines with
  | nil =>
    intro dict _
    simp only [ToDictionary_response_headers.loop, valuesOf, List.filter_nil, List.map_nil,
      List.append_nil, if_true]
    cases DictionaryValue.FindKey dict name with
    | none => rfl
    | some v => cases v <;> rfl
  | cons line rest ih =>
    obtain ⟨key, value⟩ := line
    intro dict hdots
    have hkey : '.' ∉ key.data := hdots (key, value) (List.mem_cons_self _ _)
    have hrest : ∀ l ∈ rest, '.' ∉ l.1.data := fun l hl => hdots l (List.mem_cons_of_mem _ hl)
    have hget : DictionaryValue.GetList dict key =
        (DictionaryValue.FindKey dict key).bind Value.GetAsList := by
      unfold DictionaryValue.GetList
      rw [DictionaryValue.Get_of_no_dot dict key hkey]
    simp only [ToDictionary_response_headers.loop, DictionaryValue.HasKey, hget,
      DictionaryValue.Set_of_no_dot _ key _ hkey, ListValue.AppendString]
    by_cases hname : key = name
    · subst hname
      have hvalues : valuesOf key ((key, value) :: rest) = value :: valuesOf key rest := by
        simp [valuesOf]
      rw [hvalues]
      cases hheld : DictionaryValue.FindKey dict key with
      | none =>
        simp only [Option.isSome_none, Bool.false_eq_true, if_false]
        rw [ih _ hrest, DictionaryValue.FindKey_SetKey]
        simp
      | some v =>
        cases v with
        | list held =>
          simp only [Option.isSome_some, if_true, Option.bind, Value.GetAsList]
          rw [ih _ hrest, DictionaryValue.FindKey_SetKey]
          simp
        | _ =>
          simp only [Option.isSome_some, if_true, Option.bind, Value.GetAsList]
          rw [ih _ hrest, hheld]
    · have hvalues : valuesOf name ((key, value) :: rest) = valuesOf name rest := by
        simp [valuesOf, hname]
      rw [hvalues]
      cases hheld : DictionaryValue.FindKey dict key with
      | none =>
        simp only [Option.isSome_none, Bool.false_eq_true, if_false]
        rw [ih _ hrest, DictionaryValue.FindKey_SetKey]
        simp [hname]
      | some v =>
        cases v with
        | list held =>
          simp only [Option.isSome_some, if_true, Option.bind, Value.GetAsList]
          rw [ih _ hrest, DictionaryValue.FindKey_SetKey]
          simp [hname]
        | _ =>
          simp only [Option.isSome_some, if_true, Option.bind, Value.GetAsList]
          rw [ih _ hrest]

/-- For a header block all of whose names are without dot the
response-headers contribution does what claim C17 says: `responseHeaders` is
a mapping that holds, for every name, the list of the values of the lines
with that name in order (and nothing for a name without line), and
`statusLine` and `statusCode` are those of the block. -/
theorem ToDictionary_response_headers_of_no_dot (details : DictionaryValue)
    (headers : HttpResponseHeaders) (hdots : ∀ l ∈ headers.lines, '.' ∉ l.1.data) :
    ∃ dict : DictionaryValue,
      DictionaryValue.FindKey (ToDictionary_response_headers details (some headers))
        "responseHeaders" = some (Value.dictionary dict) ∧
      (∀ name : String,
        DictionaryValue.FindKey dict name =
          if valuesOf name headers.lines = [] then none
          else some (Value.list ((valuesOf name headers.lines).map Value.string))) ∧
      DictionaryValue.FindKey (ToDictionary_response_headers details (some headers))
        "statusLine" = some (Value.string headers.status_line) ∧
      DictionaryValue.FindKey (ToDictionary_response_headers details (some headers))
        "statusCode" = some (Value.integer headers.response_code) := by
  refine ⟨ToDictionary_response_headers.loop headers.lines [], ?_, ?_, ?_, ?_⟩
  · show DictionaryValue.FindKey (DictionaryValue.SetKey (DictionaryValue.SetKey
      (DictionaryValue.SetKey details "responseHeaders" _) "statusLine" _) "statusCode" _)
      "responseHeaders" = _
    rw [DictionaryValue.FindKey_SetKey, DictionaryValue.FindKey_SetKey,
      DictionaryValue.FindKey_SetKey]
    simp [HttpResponseHeaders.EnumerateHeaderLines]
  · intro name
    rw [ToDictionary_response_headers_loop_FindKey name headers.lines [] hdots]
    rfl
  · show DictionaryValue.FindKey (DictionaryValue.SetKey (DictionaryValue.SetKey
      (DictionaryValue.SetKey details "responseHeaders" _) "statusLine" _) "statusCode" _)
      "statusLine" = _
    rw [DictionaryValue.FindKey_SetKey, DictionaryValue.FindKey_SetKey]
    simp [HttpResponseHeaders.GetStatusLine]
  · show DictionaryValue.FindKey (DictionaryValue.SetKey (DictionaryValue.SetKey
      (DictionaryValue.SetKey details "responseHeaders" _) "statusLine" _) "statusCode" _)
      "statusCode" = _
    rw [DictionaryValue.FindKey_SetKey]
    simp

/-- Claim C17 against the code: the loop stores with the path-expanding
`dict->Set(key, ...)` and tests with the plain `dict->HasKey(key)`. For the
header block with the two lines `a.b: 1` and `a.b: 2` the record gets
`responseHeaders` as the mapping of `a` to a nested mapping of `b` to the list
of the one value `2`: there is no entry for the header name `a.b`, and one
value is listed for two header lines. -/
theorem ToDictionary_response_headers_dotted_name :
    ToDictionary_response_headers []
        (some { status_line := "HTTP/1.1 200 OK", response_code := 200,
                lines := [("a.b", "1"), ("a.b", "2")] }) =
        [("responseHeaders",
            Value.dictionary
              [("a", Value.dictionary [("b", Value.list [Value.string "2"])])]),
          ("statusCode", Value.integer 200),
          ("statusLine", Value.string "HTTP/1.1 200 OK")] ∧
      ToDictionary_response_headers []
        (some { status_line := "HTTP/1.1 200 OK", response_code := 200,
                lines := [("ab", "1"), ("ab", "2")] }) =
        [("responseHeaders",
            Value.dictionary [("ab", Value.list [Value.string "1", Value.string "2"])]),
          ("statusCode", Value.integer 200),
          ("statusLine", Value.string "HTTP/1.1 200 OK")] ∧
      ToDictionary_response_headers [("id", Value.integer 7)] none =
        [("id", Value.integer 7)] := by
  refine ⟨?_, ?_, ?_⟩ <;> rfl

end Muon
